import Mathlib

/-!
Shallow embedding of the BagIt packaging and validation engine from
`bagit/bagit.go` (together with its collaborators `bagit/hasher.go`,
the `Cacher` interface, and the `fileutil` write guards), and proofs of
the specification claims about it.

Modelling conventions:

* The filesystem under the bag root is a finite association list from
  root-relative paths to file contents (`FS.files`), holding exactly the
  regular files; the required `data/` directory is tracked by the flag
  `FS.hasDataDir`.  Directories other than `data/` are not modelled (the
  walk skips every non-regular entry identically).  The list order stands
  for the deterministic enumeration order of `filepath.Walk` /
  `ioutil.ReadDir`; every operation that the claims mention sorts its
  output afterwards, so this order is unobservable in the results.
* Go strings are Lean `String`s; the byte-wise comparison Go performs on
  strings coincides with code-point lexicographic comparison, which is
  what `charsLtB` implements.  All string manipulation is done by
  recursion on `String.data` so that every definition evaluates by
  kernel reduction.
* The hash algorithms themselves (md5/sha1/sha256/sha512) are out of
  scope; a `Hasher` carries an opaque digest function from file content
  to hex string, modelling `h := Hasher.Hash(); io.Copy(h, f); h.Sum`.
* Go errors are the inductive `BagError`; `fmt.Errorf` wrapping with
  `%w` becomes an explicit `cause` argument, which is what lets the
  model express the `os.IsNotExist` test `ReadManifests` performs.
* `filepath.Abs` is the identity (the root is taken to be already
  absolute; the model has no working directory), and `filepath.Rel`
  on a path of the form `root ++ "/" ++ rel` returns `rel`, which is
  the only way the code calls it.
* I/O failures (permission errors, short reads, temp-file errors in
  `SafeFile`) are not modelled; reads fail exactly when the file is
  absent.  `SafeFile` close-and-copy always succeeds and overwrites the
  destination (`CopyVerify` → `CopyFile` → `os.Create` truncates).
-/

namespace Bagit

/-- Byte/code-point classification matching Go's `unicode.IsSpace` on the
characters relevant to manifest lines (Latin-1 range). -/
def goIsSpace (c : Char) : Bool :=
  decide (c = ' ' ∨ c = '\t' ∨ c = '\n' ∨ c = '\x0b' ∨ c = '\x0c' ∨ c = '\r' ∨
    c = '\u0085' ∨ c = ' ')

/-- Lexicographic strict comparison of char lists; this is Go's `<` on
strings (byte-wise comparison agrees with code-point comparison for
UTF-8). -/
def charsLtB : List Char → List Char → Bool
  | [], [] => false
  | [], _ :: _ => true
  | _ :: _, [] => false
  | a :: as, b :: bs => if a < b then true else if b < a then false else charsLtB as bs

/-- Go's `s < t` on strings. -/
def strLtB (a b : String) : Bool := charsLtB a.data b.data

/-- Consume `pre` off the front of `l`; `some rest` on success. -/
def dropPreChars : List Char → List Char → Option (List Char)
  | [], rest => some rest
  | _ :: _, [] => none
  | a :: as, b :: bs => if a = b then dropPreChars as bs else none

/-- Go's `strings.HasPrefix pre s` (as a Bool on our strings). -/
def startsWithB (pre s : String) : Bool := (dropPreChars pre.data s.data).isSome

/-- Suffix test on char lists. -/
def isSufChars (suf s : List Char) : Bool := (dropPreChars suf.reverse s.reverse).isSome

/-- Go's `strings.HasSuffix suf s`. -/
def endsWithB (suf s : String) : Bool := isSufChars suf.data s.data

/-- True when the char list contains a path separator. -/
def hasSlash : List Char → Bool
  | [] => false
  | c :: cs => if c = '/' then true else hasSlash cs

/-- Go's `strings.Split(s, "\n")` at the char-list level: split at every
newline; the empty input yields one empty segment. -/
def splitNlChars : List Char → List (List Char)
  | [] => [[]]
  | c :: cs =>
    if c = '\n' then [] :: splitNlChars cs
    else
      match splitNlChars cs with
      | [] => [[c]]
      | l :: ls => (c :: l) :: ls

/-- Go's `strings.Split(s, "\n")`. -/
def splitNl (s : String) : List String := (splitNlChars s.data).map String.mk

/-- Accumulator loop for `strings.Fields`: split around maximal runs of
whitespace. The accumulator holds the current field reversed. -/
def fieldsAux : List Char → List Char → List (List Char)
  | [], acc => if acc.isEmpty then [] else [acc.reverse]
  | c :: cs, acc =>
    if goIsSpace c then
      if acc.isEmpty then fieldsAux cs [] else acc.reverse :: fieldsAux cs []
    else fieldsAux cs (c :: acc)

/-- Go's `strings.Fields`. -/
def goFields (s : String) : List String := (fieldsAux s.data []).map String.mk

/-- FileChecksum holds a path to a file and its checksum
(`bagit.go`, `type FileChecksum struct`). -/
structure FileChecksum where
  Path : String
  Checksum : String
  deriving DecidableEq, Repr

/-- A Hasher represents a hash implementation (`hasher.go`).  The Go
field `Hash func() hash.Hash` together with `io.Copy`/`Sum`/`%x` is
modelled as one opaque function from file content to hex digest. -/
structure Hasher where
  Hash : String → String
  Name : String

/-- The Cacher interface (`GetSum`/`SetSum`); the Go interface value is a
record of functions over an explicit cache state `σ`. `GetSum`'s
`(value, exists)` pair becomes an `Option`. -/
structure Cacher (σ : Type) where
  GetSum : σ → String → Option String
  SetSum : σ → String → String → σ

/-- The no-op cache installed by `New`. -/
def noopCacher : Cacher Unit where
  GetSum := fun _ _ => none
  SetSum := fun s _ _ => s

/-- Bag holds state for the generation of bag manifest and other tag
files (`bagit.go`, `type Bag struct`). -/
structure Bag (σ : Type) where
  root : String
  Hasher : Hasher
  Cache : Cacher σ
  cacheState : σ
  ActualChecksums : List FileChecksum := []
  ActualTagSums : List FileChecksum := []
  ManifestChecksums : List FileChecksum := []
  ManifestTagSums : List FileChecksum := []

/-- The regular files under the bag root: association list from
root-relative path to content, plus whether `<root>/data` exists and is
a directory. -/
structure FS where
  files : List (String × String)
  hasDataDir : Bool

/-- First-match association lookup (a filesystem has unique paths, so
first match is the only match). -/
def lookupAssoc : List (String × String) → String → Option String
  | [], _ => none
  | (k, v) :: rest, key => if k = key then some v else lookupAssoc rest key

/-- Read a file's content. -/
def lookupFile (fs : FS) (path : String) : Option String := lookupAssoc fs.files path

/-- Replace-or-append write, the effect of a successful `SafeFile.Close`
(`CopyVerify`/`os.Create` truncates an existing destination). -/
def setAssoc : List (String × String) → String → String → List (String × String)
  | [], key, value => [(key, value)]
  | (k, v) :: rest, key, value =>
    if k = key then (key, value) :: rest else (k, v) :: setAssoc rest key value

/-- Write a file. -/
def setFile (fs : FS) (path content : String) : FS :=
  { fs with files := setAssoc fs.files path content }

/-- fileutil.MustNotExist: true iff `os.Stat` fails with not-exist. -/
def mustNotExist (fs : FS) (path : String) : Bool := (lookupFile fs path).isNone

/-- filepath.Join for the only shape the code uses (`root` has no
trailing slash). -/
def joinPath (a b : String) : String := a ++ "/" ++ b

/-- filepath.Rel(root, path) for the shape the code uses: strips the
`root ++ "/"` off the front of `path`.  (Paths not under the root never
reach this in the code; the model returns them unchanged.) -/
def relOf (root path : String) : String :=
  match dropPreChars (root ++ "/").data path.data with
  | some rest => String.mk rest
  | none => path

/-- Error values; `fmt.Errorf` wrapping with `%w` keeps the cause so
that `os.IsNotExist` remains expressible. -/
inductive BagError where
  | notExist (path : String)
  | invalidManifestLine (fname line : String)
  | unableToReadManifest (fname : String) (cause : BagError)
  | notABag (root : String)
  | manifestExists (fname : String)
  | tagManifestExists (fname : String)
  | emptyManifest (fname : String)
  | cannotOpen (path : String)
  | errGettingChecksum (path : String) (cause : BagError)
  deriving DecidableEq, Repr

/-- Sorted insertion by `Path` for the `sort.Slice(..., Path < Path)`
calls.  (Go's sort is unspecified on equal paths; this model places a
newly inserted element after existing equal paths.) -/
def insertCk (x : FileChecksum) : List FileChecksum → List FileChecksum
  | [] => [x]
  | y :: ys => if strLtB x.Path y.Path then x :: y :: ys else y :: insertCk x ys

/-- sort.Slice by ascending `Path`. -/
def sortByPath (l : List FileChecksum) : List FileChecksum := l.foldr insertCk []

/-- Line loop of `readSums`: skip blank lines, demand exactly two
whitespace-separated fields, first error wins; entries keep line
order (the caller sorts). -/
def parseLines (fname : String) : List String → Except BagError (List FileChecksum)
  | [] => Except.ok []
  | line :: rest =>
    if line = "" then parseLines fname rest
    else
      match goFields line with
      | [chk, path] =>
        match parseLines fname rest with
        | Except.error e => Except.error e
        | Except.ok sums => Except.ok ({ Path := path, Checksum := chk } :: sums)
      | _ => Except.error (BagError.invalidManifestLine fname line)

/-- Body of `readSums` applied to file content already in hand: split on
newlines, parse, sort by path. -/
def parseManifestText (fname text : String) : Except BagError (List FileChecksum) :=
  match parseLines fname (splitNl text) with
  | Except.error e => Except.error e
  | Except.ok sums => Except.ok (sortByPath sums)

/-- readSums: read the named file and decode it. -/
def readSums (fs : FS) (fname : String) : Except BagError (List FileChecksum) :=
  match lookupFile fs fname with
  | none => Except.error (BagError.notExist fname)
  | some text => parseManifestText fname text

/-- Bag.manifestFilename (root-relative, as all FS paths are). -/
def manifestFilename (b : Bag σ) : String := "manifest-" ++ b.Hasher.Name ++ ".txt"

/-- Bag.tagManifestFilename. -/
def tagManifestFilename (b : Bag σ) : String := "tagmanifest-" ++ b.Hasher.Name ++ ".txt"

/-- Bag.ReadManifests: the payload manifest is mandatory (any failure is
fatal, wrapped); the tag manifest tolerates only not-exist. -/
def readManifests (fs : FS) (b : Bag σ) : Bag σ × Option BagError :=
  let b := { b with ManifestChecksums := [], ManifestTagSums := [] }
  match readSums fs (manifestFilename b) with
  | Except.error e => (b, some (BagError.unableToReadManifest (manifestFilename b) e))
  | Except.ok sums =>
    let b := { b with ManifestChecksums := sums }
    match readSums fs (tagManifestFilename b) with
    | Except.error (BagError.notExist _) => (b, none)
    | Except.error e => (b, some (BagError.unableToReadManifest (tagManifestFilename b) e))
    | Except.ok tsums => ({ b with ManifestTagSums := tsums }, none)

/-- Install a computed digest in the cache (`b.Cache.SetSum`). -/
def setCache (b : Bag σ) (key value : String) : Bag σ :=
  { b with cacheState := b.Cache.SetSum b.cacheState key value }

/-- Bag.compute: open the file and hash its content.  The model reads
by the root-relative key; the error message carries the path argument as
in the source. -/
def compute (fs : FS) (b : Bag σ) (path relPath : String) : Except BagError String :=
  match lookupFile fs relPath with
  | none => Except.error (BagError.cannotOpen path)
  | some content => Except.ok (b.Hasher.Hash content)

/-- Bag.getsum: derive the root-relative path, consult the cache by that
relative path, compute on a miss, and store the result back — keyed by
the (absolute) `path` argument, exactly as the source does. -/
def getsum (fs : FS) (b : Bag σ) (path : String) : Except BagError (FileChecksum × Bag σ) :=
  let relPath := relOf b.root path
  match b.Cache.GetSum b.cacheState relPath with
  | some sum => Except.ok ({ Path := relPath, Checksum := sum }, setCache b path sum)
  | none =>
    match compute fs b path relPath with
    | Except.error e => Except.error e
    | Except.ok sum => Except.ok ({ Path := relPath, Checksum := sum }, setCache b path sum)

/-- The files `filepath.Walk` hands to the walk function under
`<root>/data`: exactly the regular files whose root-relative path starts
with `data/`. -/
def dataFileList (fs : FS) : List (String × String) :=
  fs.files.filter (fun p => startsWithB "data/" p.1)

/-- Walk loop of GenerateChecksums: per regular file, `getsum` and
append; the first error stops the walk. -/
def walkData (fs : FS) : Bag σ → List (String × String) → Bag σ × Option BagError
  | b, [] => (b, none)
  | b, entry :: rest =>
    match getsum fs b (joinPath b.root entry.1) with
    | Except.error e => (b, some e)
    | Except.ok (ck, b') =>
      walkData fs { b' with ActualChecksums := b'.ActualChecksums ++ [ck] } rest

/-- Bag.GenerateChecksums: require `data/`, reset, walk, sort (the
source sorts even on a failed walk and returns the walk's error). -/
def generateChecksums (fs : FS) (b : Bag σ) : Bag σ × Option BagError :=
  if fs.hasDataDir = false then (b, some (BagError.notABag b.root))
  else
    let r := walkData fs { b with ActualChecksums := [] } (dataFileList fs)
    ({ r.1 with ActualChecksums := sortByPath r.1.ActualChecksums }, r.2)

/-- filepath.Match "tagmanifest-*.txt" on a file name: the name splits
as `tagmanifest-` ++ middle ++ `.txt` with no separator in the middle
(`*` never matches `/`). -/
def isTagManifestMatch (name : String) : Bool :=
  startsWithB "tagmanifest-" name && endsWithB ".txt" name &&
    decide (16 ≤ name.data.length) &&
    !hasSlash ((name.data.drop 12).take (name.data.length - 16))

/-- The files GenerateTagSums visits: regular files directly under the
root (no separator in the name), excluding tag manifests. -/
def tagFileList (fs : FS) : List (String × String) :=
  fs.files.filter (fun p => !hasSlash p.1.data && !isTagManifestMatch p.1)

/-- Loop of GenerateTagSums: `getsum` each file, wrapping errors; the
first error returns immediately (before any sort). -/
def walkTags (fs : FS) : Bag σ → List (String × String) → Bag σ × Option BagError
  | b, [] => (b, none)
  | b, entry :: rest =>
    match getsum fs b (joinPath b.root entry.1) with
    | Except.error e => (b, some (BagError.errGettingChecksum (joinPath b.root entry.1) e))
    | Except.ok (ck, b') =>
      walkTags fs { b' with ActualTagSums := b'.ActualTagSums ++ [ck] } rest

/-- Bag.GenerateTagSums. -/
def generateTagSums (fs : FS) (b : Bag σ) : Bag σ × Option BagError :=
  match walkTags fs { b with ActualTagSums := [] } (tagFileList fs) with
  | (b', none) => ({ b' with ActualTagSums := sortByPath b'.ActualTagSums }, none)
  | (b', some e) => (b', some e)

/-- One manifest line per checksum: `"%s  %s\n"`. -/
def encodeSums : List FileChecksum → String
  | [] => ""
  | ck :: rest => ck.Checksum ++ "  " ++ ck.Path ++ "\n" ++ encodeSums rest

/-- Bag.writeManifest: refuse when the file exists, else write the
encoded ActualChecksums. -/
def writeManifest (fs : FS) (b : Bag σ) : FS × Option BagError :=
  let manifestFile := manifestFilename b
  if mustNotExist fs manifestFile = false then
    (fs, some (BagError.manifestExists manifestFile))
  else (setFile fs manifestFile (encodeSums b.ActualChecksums), none)

/-- The fixed two-line bagit.txt declaration. -/
def bagitContent : String := "BagIt-Version: 0.97\nTag-File-Character-Encoding: UTF-8\n"

/-- Bag.writeBagitFile: note there is no existence check here — the
SafeFile write happens (and overwrites) unconditionally. -/
def writeBagitFile (fs : FS) (_b : Bag σ) : FS × Option BagError :=
  (setFile fs "bagit.txt" bagitContent, none)

/-- Bag.writeTagManifest: refuse when the file exists, else write the
encoded ActualTagSums. -/
def writeTagManifest (fs : FS) (b : Bag σ) : FS × Option BagError :=
  let manifestFile := tagManifestFilename b
  if mustNotExist fs manifestFile = false then
    (fs, some (BagError.tagManifestExists manifestFile))
  else (setFile fs manifestFile (encodeSums b.ActualTagSums), none)

/-- The joint mutable state of a write sequence: the filesystem and the
bag (which Go mutates in place). -/
abbrev BagState (σ : Type) := FS × Bag σ

/-- GenerateChecksums as a state step. -/
def stGenerateChecksums (st : BagState σ) : BagState σ × Option BagError :=
  let r := generateChecksums st.1 st.2
  ((st.1, r.1), r.2)

/-- writeManifest as a state step. -/
def stWriteManifest (st : BagState σ) : BagState σ × Option BagError :=
  let r := writeManifest st.1 st.2
  ((r.1, st.2), r.2)

/-- writeBagitFile as a state step. -/
def stWriteBagitFile (st : BagState σ) : BagState σ × Option BagError :=
  let r := writeBagitFile st.1 st.2
  ((r.1, st.2), r.2)

/-- GenerateTagSums as a state step. -/
def stGenerateTagSums (st : BagState σ) : BagState σ × Option BagError :=
  let r := generateTagSums st.1 st.2
  ((st.1, r.1), r.2)

/-- writeTagManifest as a state step. -/
def stWriteTagManifest (st : BagState σ) : BagState σ × Option BagError :=
  let r := writeTagManifest st.1 st.2
  ((r.1, st.2), r.2)

/-- Bag.WriteTagFiles: the `err = ...; if err == nil { err = ... }`
chain from the source. -/
def writeTagFiles (st : BagState σ) : BagState σ × Option BagError :=
  match stGenerateChecksums st with
  | (st1, some e) => (st1, some e)
  | (st1, none) =>
    match stWriteManifest st1 with
    | (st2, some e) => (st2, some e)
    | (st2, none) =>
      match stWriteBagitFile st2 with
      | (st3, some e) => (st3, some e)
      | (st3, none) =>
        match stGenerateTagSums st3 with
        | (st4, some e) => (st4, some e)
        | (st4, none) => stWriteTagManifest st4

/-- Go map lookup on the path→checksum map `mapify` builds: later
duplicate paths overwrite earlier ones; a missing key yields the zero
value `""`. -/
def mapGet (m : List FileChecksum) (path : String) : String :=
  m.foldl (fun acc ck => if ck.Path = path then ck.Checksum else acc) ""

/-- Distinct keys of a Go map, in first-insertion order (Go's iteration
order is unspecified; the claims treat the result as a set). -/
def dedupAux : List String → List String → List String
  | [], _ => []
  | x :: xs, seen => if x ∈ seen then dedupAux xs seen else x :: dedupAux xs (x :: seen)

/-- Key set of a checksum list's map. -/
def dedupKeys (l : List String) : List String := dedupAux l []

/-- Simplified `%q`: the claims never inspect escaping, only which
messages appear. -/
def goQuote (s : String) : String := "\"" ++ s ++ "\""

/-- Message for a file the manifest lists but the disk lacks. -/
def missingMsg (manifestType path : String) : String :=
  "missing file: " ++ goQuote path ++ " (" ++ manifestType ++
    " lists the file, but it is not present on disk)"

/-- Message for a checksum mismatch (the source's format string lacks
the closing parenthesis; kept as-is). -/
def corruptMsg (manifestType path mchk achk : String) : String :=
  "corrupt file: " ++ goQuote path ++ " (" ++ manifestType ++ " checksum was " ++
    goQuote mchk ++ ", actual checksum was " ++ goQuote achk

/-- Message for a file on disk that the manifest does not list. -/
def extraMsg (manifestType path : String) : String :=
  "extra file: " ++ goQuote path ++ " (" ++ manifestType ++
    " does not list the file, but it is present on disk)"

/-- Compare: step 1 over the manifest map's keys (missing/corrupt,
testing presence via the `""` zero value), step 2 over the actual map's
keys (extra). -/
def Compare (manifestType : String) (manifest actual : List FileChecksum) : List String :=
  let step1 := (dedupKeys (manifest.map (·.Path))).filterMap (fun path =>
    let mchk := mapGet manifest path
    let achk := mapGet actual path
    if achk = "" then some (missingMsg manifestType path)
    else if achk ≠ mchk then some (corruptMsg manifestType path mchk achk)
    else none)
  let step2 := (dedupKeys (actual.map (·.Path))).filterMap (fun path =>
    if mapGet manifest path = "" then some (extraMsg manifestType path) else none)
  step1 ++ step2

/-- Shared tail of Validate: recompute payload checksums and compare
them against the payload manifest. -/
def validatePayload (fs : FS) (b : Bag σ) : (List String × Option BagError) × Bag σ :=
  match generateChecksums fs b with
  | (b, some e) => (([], some e), b)
  | (b, none) => ((Compare "manifest" b.ManifestChecksums b.ActualChecksums, none), b)

/-- Bag.Validate: read manifests, reject an empty payload manifest,
validate the tag layer first (when the parsed tag manifest is
non-empty) and short-circuit on tag discrepancies, else validate the
payload. -/
def validate (fs : FS) (b : Bag σ) : (List String × Option BagError) × Bag σ :=
  match readManifests fs b with
  | (b, some e) => (([], some e), b)
  | (b, none) =>
    if b.ManifestChecksums.length = 0 then
      (([], some (BagError.emptyManifest (manifestFilename b))), b)
    else
      if 0 < b.ManifestTagSums.length then
        match generateTagSums fs b with
        | (b, some e) => (([], some e), b)
        | (b, none) =>
          let discrepancies := Compare "tag manifest" b.ManifestTagSums b.ActualTagSums
          if 0 < discrepancies.length then ((discrepancies, none), b)
          else validatePayload fs b
      else validatePayload fs b

end Bagit

namespace Bagit

/-! ### Order and sorting lemmas -/

theorem strDataAppend (a b : String) : (a ++ b).data = a.data ++ b.data := rfl

theorem stringExt {a b : String} (h : a.data = b.data) : a = b := by
  cases a; cases b; exact congrArg String.mk h

theorem charsLtB_asymm : ∀ {a b : List Char},
    charsLtB a b = true → charsLtB b a = false
  | [], [], h => by cases h
  | [], _ :: _, _ => rfl
  | _ :: _, [], h => by cases h
  | a :: as, b :: bs, h => by
    by_cases hab : a < b
    · have hba : ¬ b < a := fun h2 => absurd hab (lt_asymm h2)
      simp [charsLtB, hab, hba]
    · by_cases hba : b < a
      · simp [charsLtB, hab, hba] at h
      · simp only [charsLtB, if_neg hab, if_neg hba] at h
        simp [charsLtB, hab, hba, charsLtB_asymm h]

theorem charsLtB_conn : ∀ {a b : List Char},
    charsLtB a b = false → charsLtB b a = false → a = b
  | [], [], _, _ => rfl
  | [], _ :: _, h, _ => by cases h
  | _ :: _, [], _, h2 => by cases h2
  | a :: as, b :: bs, h, h2 => by
    by_cases hab : a < b
    · simp [charsLtB, hab] at h
    · by_cases hba : b < a
      · simp [charsLtB, hba, lt_asymm hba] at h2
      · have hch : a = b := le_antisymm (not_lt.mp hba) (not_lt.mp hab)
        subst hch
        simp only [charsLtB, if_neg hab, if_neg hba] at h h2
        rw [charsLtB_conn h h2]

theorem strLtB_asymm {a b : String} (h : strLtB a b = true) : strLtB b a = false :=
  charsLtB_asymm h

theorem strLtB_conn {a b : String} (h : strLtB a b = false) (h2 : strLtB b a = false) :
    a = b :=
  stringExt (charsLtB_conn h h2)

/-- Adjacent (weak) sortedness by path, the property `sort.Slice`
establishes. -/
def pathSortedB : List FileChecksum → Bool
  | [] => true
  | [_] => true
  | a :: b :: rest => !strLtB b.Path a.Path && pathSortedB (b :: rest)

/-- Adjacent strict sortedness by path. -/
def pathStrictSortedB : List FileChecksum → Bool
  | [] => true
  | [_] => true
  | a :: b :: rest => strLtB a.Path b.Path && pathStrictSortedB (b :: rest)

theorem pathSortedB_cons {a b : FileChecksum} {rest : List FileChecksum} :
    pathSortedB (a :: b :: rest) = true ↔
      strLtB b.Path a.Path = false ∧ pathSortedB (b :: rest) = true := by
  simp [pathSortedB]

theorem pathStrictSortedB_cons {a b : FileChecksum} {rest : List FileChecksum} :
    pathStrictSortedB (a :: b :: rest) = true ↔
      strLtB a.Path b.Path = true ∧ pathStrictSortedB (b :: rest) = true := by
  simp [pathStrictSortedB]

theorem insertCk_perm (x : FileChecksum) : ∀ l : List FileChecksum,
    (insertCk x l).Perm (x :: l)
  | [] => List.Perm.refl _
  | y :: ys => by
    by_cases h : strLtB x.Path y.Path
    · simp [insertCk, h]
    · simp only [insertCk, h, Bool.false_eq_true, if_false]
      exact ((insertCk_perm x ys).cons y).trans (List.Perm.swap x y ys)

theorem sortByPath_perm : ∀ l : List FileChecksum, (sortByPath l).Perm l
  | [] => List.Perm.refl _
  | x :: xs => by
    have h1 : sortByPath (x :: xs) = insertCk x (sortByPath xs) := rfl
    rw [h1]
    exact (insertCk_perm x (sortByPath xs)).trans ((sortByPath_perm xs).cons x)

theorem insertCk_sorted (x : FileChecksum) : ∀ {l : List FileChecksum},
    pathSortedB l = true → pathSortedB (insertCk x l) = true
  | [], _ => rfl
  | [y], _ => by
    by_cases h : strLtB x.Path y.Path
    · simp [insertCk, h, pathSortedB, strLtB_asymm h]
    · simp only [Bool.not_eq_true] at h
      simp [insertCk, h, pathSortedB]
  | y :: z :: rest, hs => by
    have hyz : strLtB z.Path y.Path = false := (pathSortedB_cons.mp hs).1
    have htl : pathSortedB (z :: rest) = true := (pathSortedB_cons.mp hs).2
    by_cases h : strLtB x.Path y.Path
    · have h2 : strLtB y.Path x.Path = false := strLtB_asymm h
      simp [insertCk, h, pathSortedB, h2, hyz, htl]
    · simp only [Bool.not_eq_true] at h
      have ih : pathSortedB (insertCk x (z :: rest)) = true := insertCk_sorted x htl
      by_cases h2 : strLtB x.Path z.Path
      · simp [insertCk, h, h2, pathSortedB, hyz, strLtB_asymm h2, htl, ih]
      · simp only [Bool.not_eq_true] at h2
        have hshape : insertCk x (z :: rest) = z :: insertCk x rest := by
          show (if strLtB x.Path z.Path = true then x :: z :: rest else z :: insertCk x rest)
            = z :: insertCk x rest
          rw [h2]
          simp
        have ih2 := ih
        rw [hshape] at ih2
        have hgoal : insertCk x (y :: z :: rest) = y :: z :: insertCk x rest := by
          show (if strLtB x.Path y.Path = true then x :: y :: z :: rest
            else y :: insertCk x (z :: rest)) = y :: z :: insertCk x rest
          rw [h]
          simp [hshape]
        rw [hgoal]
        exact pathSortedB_cons.mpr ⟨hyz, ih2⟩

theorem sortByPath_sorted : ∀ l : List FileChecksum, pathSortedB (sortByPath l) = true
  | [] => rfl
  | x :: xs => insertCk_sorted x (sortByPath_sorted xs)

theorem sortByPath_of_strict : ∀ {l : List FileChecksum},
    pathStrictSortedB l = true → sortByPath l = l
  | [], _ => rfl
  | [x], _ => rfl
  | x :: y :: rest, hs => by
    have h1 : strLtB x.Path y.Path = true := (pathStrictSortedB_cons.mp hs).1
    have h2 : pathStrictSortedB (y :: rest) = true := (pathStrictSortedB_cons.mp hs).2
    have ih : sortByPath (y :: rest) = y :: rest := sortByPath_of_strict h2
    have hstep : sortByPath (x :: y :: rest) = insertCk x (sortByPath (y :: rest)) := rfl
    rw [hstep, ih]
    simp [insertCk, h1]

theorem strict_of_sorted_nodup : ∀ {l : List FileChecksum},
    pathSortedB l = true → (l.map FileChecksum.Path).Nodup →
    pathStrictSortedB l = true
  | [], _, _ => rfl
  | [_], _, _ => rfl
  | x :: y :: rest, hs, hn => by
    have hxy : strLtB y.Path x.Path = false := (pathSortedB_cons.mp hs).1
    have htl : pathSortedB (y :: rest) = true := (pathSortedB_cons.mp hs).2
    have hntl : ((y :: rest).map FileChecksum.Path).Nodup := (List.nodup_cons.mp hn).2
    have hne : x.Path ≠ y.Path := by
      intro hcontra
      exact (List.nodup_cons.mp hn).1 (by simp [hcontra])
    have hlt : strLtB x.Path y.Path = true := by
      by_contra hc
      simp only [Bool.not_eq_true] at hc
      exact hne (strLtB_conn hc hxy)
    exact pathStrictSortedB_cons.mpr ⟨hlt, strict_of_sorted_nodup htl hntl⟩

theorem sortByPath_nodup {l : List FileChecksum}
    (h : (l.map FileChecksum.Path).Nodup) :
    ((sortByPath l).map FileChecksum.Path).Nodup :=
  (((sortByPath_perm l).map FileChecksum.Path).nodup_iff).mpr h

theorem sortByPath_strict {l : List FileChecksum}
    (h : (l.map FileChecksum.Path).Nodup) :
    pathStrictSortedB (sortByPath l) = true :=
  strict_of_sorted_nodup (sortByPath_sorted l) (sortByPath_nodup h)

end Bagit

namespace Bagit

/-! ### Association list and filesystem lemmas -/

theorem lookupAssoc_eq_none_iff : ∀ {l : List (String × String)} {k : String},
    lookupAssoc l k = none ↔ k ∉ l.map Prod.fst
  | [], _ => by simp [lookupAssoc]
  | (a, v) :: rest, k => by
    by_cases h : a = k
    · simp [lookupAssoc, h]
    · simp [lookupAssoc, h, lookupAssoc_eq_none_iff, Ne.symm h]

theorem lookupAssoc_of_nodup : ∀ {l : List (String × String)},
    (l.map Prod.fst).Nodup → ∀ {k v : String}, (k, v) ∈ l → lookupAssoc l k = some v
  | [], _, _, _, hm => by cases hm
  | (a, w) :: rest, hn, k, v, hm => by
    have hn2 : a ∉ rest.map Prod.fst ∧ (rest.map Prod.fst).Nodup := by
      rw [List.map_cons] at hn
      exact List.nodup_cons.mp hn
    rcases List.mem_cons.mp hm with heq | htail
    · injection heq with h1 h2
      subst h1; subst h2
      simp [lookupAssoc]
    · have hne : a ≠ k := by
        intro hcontra
        exact hn2.1 (hcontra ▸ List.mem_map.mpr ⟨(k, v), htail, rfl⟩)
      simp [lookupAssoc, hne, lookupAssoc_of_nodup hn2.2 htail]

theorem lookupAssoc_append_left {l m : List (String × String)} {k v : String}
    (h : lookupAssoc l k = some v) : lookupAssoc (l ++ m) k = some v := by
  induction l with
  | nil => cases h
  | cons hd tl ih =>
    obtain ⟨a, w⟩ := hd
    by_cases hk : a = k
    · simp [lookupAssoc, hk] at h ⊢
      exact h
    · simp [lookupAssoc, hk] at h ⊢
      exact ih h

theorem lookupAssoc_append_right {l m : List (String × String)} {k : String}
    (h : lookupAssoc l k = none) : lookupAssoc (l ++ m) k = lookupAssoc m k := by
  induction l with
  | nil => rfl
  | cons hd tl ih =>
    obtain ⟨a, w⟩ := hd
    by_cases hk : a = k
    · simp [lookupAssoc, hk] at h
    · simp [lookupAssoc, hk] at h ⊢
      exact ih h

theorem setAssoc_of_absent : ∀ {l : List (String × String)} {k : String}
    (_ : lookupAssoc l k = none) (v : String), setAssoc l k v = l ++ [(k, v)]
  | [], _, _, _ => rfl
  | (a, w) :: rest, k, h, v => by
    by_cases hk : a = k
    · simp [lookupAssoc, hk] at h
    · have h2 : lookupAssoc rest k = none := by
        simpa [lookupAssoc, hk] using h
      simp [setAssoc, hk, setAssoc_of_absent h2 v]

theorem isEmpty_false_of_ne_nil {α : Type} {l : List α} (h : l ≠ []) :
    l.isEmpty = false := by
  cases l with
  | nil => exact absurd rfl h
  | cons _ _ => rfl

/-! ### Manifest text encode/decode lemmas -/

/-- Non-empty and free of Go whitespace: the property of paths and hex
digests that makes a manifest line decodable. -/
def cleanStrB (s : String) : Bool := !s.data.isEmpty && s.data.all (fun c => !goIsSpace c)

theorem cleanStrB_ne_nil {s : String} (h : cleanStrB s = true) : s.data ≠ [] := by
  have := (Bool.and_eq_true ..).mp h
  intro hc
  simp [hc] at this

theorem cleanStrB_no_space {s : String} (h : cleanStrB s = true) :
    ∀ c ∈ s.data, goIsSpace c = false := by
  have h2 := ((Bool.and_eq_true ..).mp h).2
  intro c hc
  have := (List.all_eq_true.mp h2) c hc
  simpa using this

theorem cleanStrB_no_newline {s : String} (h : cleanStrB s = true) : '\n' ∉ s.data := by
  intro hc
  have := cleanStrB_no_space h _ hc
  simp [goIsSpace] at this

theorem splitNlChars_ne_nil : ∀ l : List Char, splitNlChars l ≠ []
  | [] => by simp [splitNlChars]
  | c :: cs => by
    by_cases h : c = '\n'
    · simp [splitNlChars, h]
    · simp only [splitNlChars, h, ite_false, if_neg]
      cases hr : splitNlChars cs with
      | nil => simp
      | cons hd tl => simp

theorem splitNlChars_line : ∀ {xs : List Char}, '\n' ∉ xs → ∀ rest : List Char,
    splitNlChars (xs ++ '\n' :: rest) = xs :: splitNlChars rest
  | [], _, rest => by simp [splitNlChars]
  | c :: xs, h, rest => by
    have hc : ¬ (c = '\n') := fun hc => h (by simp [hc])
    have hxs : '\n' ∉ xs := fun hm => h (by simp [hm])
    have ih : splitNlChars (xs.append ('\n' :: rest)) = xs :: splitNlChars rest :=
      splitNlChars_line hxs rest
    simp only [List.cons_append, splitNlChars, hc, ite_false, if_neg, ih]

theorem fieldsAux_run : ∀ {f : List Char}, (∀ c ∈ f, goIsSpace c = false) →
    ∀ (rest acc : List Char), fieldsAux (f ++ rest) acc = fieldsAux rest (f.reverse ++ acc)
  | [], _, rest, acc => by simp
  | c :: f, h, rest, acc => by
    have hc : goIsSpace c = false := h c (by simp)
    have hf : ∀ ch ∈ f, goIsSpace ch = false := fun ch hch => h ch (by simp [hch])
    have ih : fieldsAux (f.append rest) (c :: acc) = fieldsAux rest (f.reverse ++ c :: acc) :=
      fieldsAux_run hf rest (c :: acc)
    simp only [List.cons_append, fieldsAux, hc, Bool.false_eq_true, ite_false, if_neg, ih]
    simp

theorem fieldsAux_space_cons (cs acc : List Char) (hacc : acc.isEmpty = false) :
    fieldsAux (' ' :: cs) acc = acc.reverse :: fieldsAux cs [] := by
  have hsp : goIsSpace ' ' = true := rfl
  simp [fieldsAux, hsp, hacc]

theorem fieldsAux_space_nil (cs : List Char) :
    fieldsAux (' ' :: cs) [] = fieldsAux cs [] := by
  have hsp : goIsSpace ' ' = true := rfl
  simp [fieldsAux, hsp]

theorem fieldsAux_nil_acc (acc : List Char) (hacc : acc.isEmpty = false) :
    fieldsAux [] acc = [acc.reverse] := by
  simp [fieldsAux, hacc]

theorem fieldsAux_two {c p : List Char} (hc : c ≠ [])
    (hcs : ∀ ch ∈ c, goIsSpace ch = false) (hp : p ≠ [])
    (hps : ∀ ch ∈ p, goIsSpace ch = false) :
    fieldsAux (c ++ ' ' :: ' ' :: p) [] = [c, p] := by
  rw [fieldsAux_run hcs (' ' :: ' ' :: p) []]
  rw [List.append_nil]
  rw [fieldsAux_space_cons _ _ (isEmpty_false_of_ne_nil (by simpa using hc))]
  rw [List.reverse_reverse]
  rw [fieldsAux_space_nil]
  have h2 : fieldsAux p [] = fieldsAux [] (p.reverse ++ []) := by
    have h3 := fieldsAux_run hps [] ([] : List Char)
    rw [List.append_nil] at h3
    exact h3
  rw [h2, List.append_nil]
  rw [fieldsAux_nil_acc _ (isEmpty_false_of_ne_nil (by simpa using hp))]
  rw [List.reverse_reverse]

end Bagit

namespace Bagit

/-- Character content of one manifest line, `"<digest>  <path>"`. -/
def lineChars (ck : FileChecksum) : List Char :=
  ck.Checksum.data ++ ' ' :: ' ' :: ck.Path.data

/-- All paths and digests in the list are manifest-line safe. -/
def cleanSumsB (l : List FileChecksum) : Bool :=
  l.all (fun ck => cleanStrB ck.Path && cleanStrB ck.Checksum)

theorem cleanSumsB_head {ck : FileChecksum} {rest : List FileChecksum}
    (h : cleanSumsB (ck :: rest) = true) :
    cleanStrB ck.Path = true ∧ cleanStrB ck.Checksum = true := by
  have := (List.all_eq_true.mp h) ck (by simp)
  simpa [Bool.and_eq_true] using this

theorem cleanSumsB_tail {ck : FileChecksum} {rest : List FileChecksum}
    (h : cleanSumsB (ck :: rest) = true) : cleanSumsB rest = true := by
  apply List.all_eq_true.mpr
  intro x hx
  exact (List.all_eq_true.mp h) x (by simp [hx])

theorem encodeSums_data (ck : FileChecksum) (rest : List FileChecksum) :
    (encodeSums (ck :: rest)).data = lineChars ck ++ '\n' :: (encodeSums rest).data := by
  have h1 : ("  " : String).data = [' ', ' '] := rfl
  have h2 : ("\n" : String).data = ['\n'] := rfl
  simp [encodeSums, lineChars, strDataAppend, h1, h2]

theorem newline_not_mem_lineChars {ck : FileChecksum}
    (hp : cleanStrB ck.Path = true) (hc : cleanStrB ck.Checksum = true) :
    '\n' ∉ lineChars ck := by
  intro hmem
  rcases List.mem_append.mp hmem with h | h
  · exact cleanStrB_no_newline hc h
  · rcases List.mem_cons.mp h with h2 | h2
    · cases h2
    · rcases List.mem_cons.mp h2 with h3 | h3
      · cases h3
      · exact cleanStrB_no_newline hp h3

theorem splitNl_encode : ∀ {l : List FileChecksum}, cleanSumsB l = true →
    splitNlChars (encodeSums l).data = l.map lineChars ++ [[]]
  | [], _ => rfl
  | ck :: rest, h => by
    have hh := cleanSumsB_head h
    have ih := splitNl_encode (cleanSumsB_tail h)
    rw [encodeSums_data, splitNlChars_line (newline_not_mem_lineChars hh.1 hh.2), ih]
    simp

theorem lineString_ne_empty {ck : FileChecksum} (hc : cleanStrB ck.Checksum = true) :
    String.mk (lineChars ck) ≠ "" := by
  intro h
  have hdata : lineChars ck = [] := by
    have := congrArg String.data h
    simpa using this
  have := cleanStrB_ne_nil hc
  cases hck : ck.Checksum.data with
  | nil => exact this hck
  | cons a as =>
    rw [lineChars, hck] at hdata
    cases hdata

theorem goFields_line {ck : FileChecksum}
    (hp : cleanStrB ck.Path = true) (hc : cleanStrB ck.Checksum = true) :
    goFields (String.mk (lineChars ck)) = [ck.Checksum, ck.Path] := by
  have h2 : fieldsAux (ck.Checksum.data ++ ' ' :: ' ' :: ck.Path.data) [] =
      [ck.Checksum.data, ck.Path.data] :=
    fieldsAux_two (cleanStrB_ne_nil hc) (cleanStrB_no_space hc)
      (cleanStrB_ne_nil hp) (cleanStrB_no_space hp)
  show (fieldsAux (lineChars ck) []).map String.mk = _
  rw [lineChars, h2]
  rfl

theorem parseLines_encode (fname : String) : ∀ {l : List FileChecksum},
    cleanSumsB l = true →
    parseLines fname (l.map (fun ck => String.mk (lineChars ck)) ++ [""]) = Except.ok l
  | [], _ => rfl
  | ck :: rest, h => by
    have hh := cleanSumsB_head h
    have ih := parseLines_encode fname (cleanSumsB_tail h)
    have hne : ¬ (String.mk (lineChars ck) = "") := lineString_ne_empty hh.2
    show parseLines fname (String.mk (lineChars ck) ::
      (rest.map (fun ck => String.mk (lineChars ck)) ++ [""])) = Except.ok (ck :: rest)
    rw [show parseLines fname (String.mk (lineChars ck) ::
        (rest.map (fun ck => String.mk (lineChars ck)) ++ [""])) =
        if String.mk (lineChars ck) = "" then
          parseLines fname (rest.map (fun ck => String.mk (lineChars ck)) ++ [""])
        else
          match goFields (String.mk (lineChars ck)) with
          | [chk, path] =>
            match parseLines fname (rest.map (fun ck => String.mk (lineChars ck)) ++ [""]) with
            | Except.error e => Except.error e
            | Except.ok sums => Except.ok ({ Path := path, Checksum := chk } :: sums)
          | _ => Except.error
              (BagError.invalidManifestLine fname (String.mk (lineChars ck)))
        from rfl]
    rw [if_neg hne, goFields_line hh.1 hh.2, ih]

theorem splitNl_encode_str {l : List FileChecksum} (h : cleanSumsB l = true) :
    splitNl (encodeSums l) = l.map (fun ck => String.mk (lineChars ck)) ++ [""] := by
  show (splitNlChars (encodeSums l).data).map String.mk = _
  rw [splitNl_encode h]
  simp

theorem parseManifestText_encode {fname : String} {l : List FileChecksum}
    (h : cleanSumsB l = true) :
    parseManifestText fname (encodeSums l) = Except.ok (sortByPath l) := by
  show (match parseLines fname (splitNl (encodeSums l)) with
    | Except.error e => Except.error e
    | Except.ok sums => Except.ok (sortByPath sums)) = _
  rw [splitNl_encode_str h, parseLines_encode fname h]

theorem parseManifestText_encode_strict {fname : String} {l : List FileChecksum}
    (h : cleanSumsB l = true) (hs : pathStrictSortedB l = true) :
    parseManifestText fname (encodeSums l) = Except.ok l := by
  rw [parseManifestText_encode h, sortByPath_of_strict hs]

end Bagit

namespace Bagit

/-- Specification-side description of the pairs a manifest text denotes:
one `(checksum, path)` pair per non-blank line, in line order. -/
def linePairs (lines : List String) : List FileChecksum :=
  lines.filterMap (fun line =>
    if line = "" then none
    else
      match goFields line with
      | [chk, path] => some { Path := path, Checksum := chk }
      | _ => none)

theorem parseLines_error : ∀ {fname : String} {lines : List String} {e : BagError},
    parseLines fname lines = Except.error e →
    ∃ line ∈ lines, line ≠ "" ∧ (goFields line).length ≠ 2 ∧
      e = BagError.invalidManifestLine fname line
  | fname, [], e, h => by cases h
  | fname, line :: rest, e, h => by
    by_cases hb : line = ""
    · rw [show parseLines fname (line :: rest) = parseLines fname rest by
        simp [parseLines, hb]] at h
      obtain ⟨l2, hl2, h1, h2, h3⟩ := parseLines_error h
      exact ⟨l2, by simp [hl2], h1, h2, h3⟩
    · cases hgf : goFields line with
      | nil =>
        rw [show parseLines fname (line :: rest) =
            Except.error (BagError.invalidManifestLine fname line) by
          simp [parseLines, hb, hgf]] at h
        injection h with h4
        exact ⟨line, by simp, hb, by simp [hgf], h4.symm⟩
      | cons f1 fs1 =>
        cases fs1 with
        | nil =>
          rw [show parseLines fname (line :: rest) =
              Except.error (BagError.invalidManifestLine fname line) by
            simp [parseLines, hb, hgf]] at h
          injection h with h4
          exact ⟨line, by simp, hb, by simp [hgf], h4.symm⟩
        | cons f2 fs2 =>
          cases fs2 with
          | nil =>
            rw [show parseLines fname (line :: rest) =
                match parseLines fname rest with
                | Except.error e2 => Except.error e2
                | Except.ok sums => Except.ok ({ Path := f2, Checksum := f1 } :: sums) by
              simp [parseLines, hb, hgf]] at h
            cases hrest : parseLines fname rest with
            | error e2 =>
              rw [hrest] at h
              injection h with h4
              obtain ⟨l2, hl2, h1, h2, h3⟩ := parseLines_error hrest
              exact ⟨l2, by simp [hl2], h1, h2, by rw [← h4]; exact h3⟩
            | ok sums =>
              rw [hrest] at h
              cases h
          | cons f3 fs3 =>
            rw [show parseLines fname (line :: rest) =
                Except.error (BagError.invalidManifestLine fname line) by
              simp [parseLines, hb, hgf]] at h
            injection h with h4
            exact ⟨line, by simp, hb, by simp [hgf], h4.symm⟩

theorem parseLines_ok_of_wf : ∀ {fname : String} {lines : List String},
    (∀ line ∈ lines, line = "" ∨ (goFields line).length = 2) →
    parseLines fname lines = Except.ok (linePairs lines)
  | _, [], _ => rfl
  | fname, line :: rest, h => by
    have ih : parseLines fname rest = Except.ok (linePairs rest) :=
      parseLines_ok_of_wf (fun l hl => h l (List.mem_cons_of_mem _ hl))
    by_cases hb : line = ""
    · simp only [parseLines, hb, ite_true, if_pos, ih]
      simp [linePairs, hb]
    · rcases h line (by simp) with hcase | hcase
      · exact absurd hcase hb
      · obtain ⟨f1, f2, hgf⟩ : ∃ f1 f2, goFields line = [f1, f2] := by
          cases hg : goFields line with
          | nil => rw [hg] at hcase; cases hcase
          | cons a as =>
            cases as with
            | nil => rw [hg] at hcase; cases hcase
            | cons b bs =>
              cases bs with
              | nil => exact ⟨a, b, rfl⟩
              | cons c cs => rw [hg] at hcase; simp at hcase
        rw [show parseLines fname (line :: rest) =
            match parseLines fname rest with
            | Except.error e2 => Except.error e2
            | Except.ok sums => Except.ok ({ Path := f2, Checksum := f1 } :: sums) by
          simp [parseLines, hb, hgf]]
        rw [ih]
        show Except.ok ({ Path := f2, Checksum := f1 } :: linePairs rest) = _
        rw [show linePairs (line :: rest) =
            { Path := f2, Checksum := f1 } :: linePairs rest by
          simp [linePairs, hb, hgf]]

end Bagit

namespace Bagit

/-! ### Map and Compare lemmas -/

theorem mapGet_foldl_no_match : ∀ {l : List FileChecksum} {p : String},
    p ∉ l.map FileChecksum.Path → ∀ acc : String,
    l.foldl (fun acc ck => if ck.Path = p then ck.Checksum else acc) acc = acc
  | [], _, _, _ => rfl
  | hd :: tl, p, h, acc => by
    have hne : hd.Path ≠ p := fun hc => h (by simp [hc])
    have htl : p ∉ tl.map FileChecksum.Path := fun hc => h (by simp [hc])
    show tl.foldl _ (if hd.Path = p then hd.Checksum else acc) = acc
    rw [if_neg hne]
    exact mapGet_foldl_no_match htl acc

theorem mapGet_of_not_mem {l : List FileChecksum} {p : String}
    (h : p ∉ l.map FileChecksum.Path) : mapGet l p = "" :=
  mapGet_foldl_no_match h ""

theorem mapGet_foldl_indep : ∀ {l : List FileChecksum} {p : String},
    p ∈ l.map FileChecksum.Path → ∀ a b : String,
    l.foldl (fun acc ck => if ck.Path = p then ck.Checksum else acc) a =
      l.foldl (fun acc ck => if ck.Path = p then ck.Checksum else acc) b
  | [], _, h, _, _ => by cases h
  | hd :: tl, p, h, a, b => by
    by_cases hh : hd.Path = p
    · show tl.foldl _ (if hd.Path = p then hd.Checksum else a) =
        tl.foldl _ (if hd.Path = p then hd.Checksum else b)
      rw [if_pos hh, if_pos hh]
    · have htl : p ∈ tl.map FileChecksum.Path := by
        rcases List.mem_map.mp h with ⟨ck, hck, hpe⟩
        rcases List.mem_cons.mp hck with hc | hc
        · exact absurd (hc ▸ hpe) hh
        · exact List.mem_map.mpr ⟨ck, hc, hpe⟩
      show tl.foldl _ (if hd.Path = p then hd.Checksum else a) =
        tl.foldl _ (if hd.Path = p then hd.Checksum else b)
      rw [if_neg hh, if_neg hh]
      exact mapGet_foldl_indep htl a b

theorem mapGet_mem_exists : ∀ {l : List FileChecksum} {p : String},
    p ∈ l.map FileChecksum.Path →
    ∃ ck ∈ l, ck.Path = p ∧ mapGet l p = ck.Checksum
  | [], _, h => by cases h
  | hd :: tl, p, h => by
    by_cases htl : p ∈ tl.map FileChecksum.Path
    · obtain ⟨ck, hck, hpe, hget⟩ := mapGet_mem_exists htl
      refine ⟨ck, by simp [hck], hpe, ?_⟩
      show tl.foldl _ (if hd.Path = p then hd.Checksum else "") = ck.Checksum
      rw [mapGet_foldl_indep htl _ ""]
      exact hget
    · have hh : hd.Path = p := by
        rcases List.mem_map.mp h with ⟨ck, hck, hpe⟩
        rcases List.mem_cons.mp hck with hc | hc
        · exact hc ▸ hpe
        · exact absurd (List.mem_map.mpr ⟨ck, hc, hpe⟩) htl
      refine ⟨hd, by simp, hh, ?_⟩
      show tl.foldl _ (if hd.Path = p then hd.Checksum else "") = hd.Checksum
      rw [if_pos hh]
      exact mapGet_foldl_no_match htl hd.Checksum

theorem mapGet_nodup {l : List FileChecksum}
    (hn : (l.map FileChecksum.Path).Nodup) {ck : FileChecksum} (hm : ck ∈ l) :
    mapGet l ck.Path = ck.Checksum := by
  obtain ⟨ck2, hck2, hpe, hget⟩ :=
    mapGet_mem_exists (List.mem_map.mpr ⟨ck, hm, rfl⟩)
  have heq : ck2 = ck := List.inj_on_of_nodup_map hn hck2 hm hpe
  exact heq ▸ hget

end Bagit

namespace Bagit

theorem mem_dedupAux : ∀ {l seen : List String} {p : String},
    p ∈ dedupAux l seen ↔ (p ∈ l ∧ p ∉ seen)
  | [], seen, p => by simp [dedupAux]
  | x :: xs, seen, p => by
    by_cases hx : x ∈ seen
    · rw [show dedupAux (x :: xs) seen = dedupAux xs seen by simp [dedupAux, hx]]
      rw [mem_dedupAux]
      constructor
      · rintro ⟨h1, h2⟩
        exact ⟨by simp [h1], h2⟩
      · rintro ⟨h1, h2⟩
        rcases List.mem_cons.mp h1 with hc | hc
        · exact absurd (hc ▸ hx) h2
        · exact ⟨hc, h2⟩
    · rw [show dedupAux (x :: xs) seen = x :: dedupAux xs (x :: seen) by
        simp [dedupAux, hx]]
      constructor
      · intro h
        rcases List.mem_cons.mp h with hc | hc
        · exact ⟨by simp [hc], hc ▸ hx⟩
        · have := mem_dedupAux.mp hc
          refine ⟨by simp [this.1], ?_⟩
          intro hs
          exact this.2 (by simp [hs])
      · rintro ⟨h1, h2⟩
        rcases List.mem_cons.mp h1 with hc | hc
        · simp [hc]
        · by_cases hpx : p = x
          · simp [hpx]
          · refine List.mem_cons.mpr (Or.inr (mem_dedupAux.mpr ⟨hc, ?_⟩))
            intro hs
            rcases List.mem_cons.mp hs with hcc | hcc
            · exact hpx hcc
            · exact h2 hcc

theorem mem_dedupKeys {l : List String} {p : String} : p ∈ dedupKeys l ↔ p ∈ l := by
  rw [dedupKeys, mem_dedupAux]
  simp

theorem cleanStrB_ne_empty {s : String} (h : cleanStrB s = true) : s ≠ "" := by
  intro hc
  exact cleanStrB_ne_nil h (by rw [hc])

theorem compare_self {t : String} {l : List FileChecksum}
    (h : ∀ ck ∈ l, ck.Checksum ≠ "") : Compare t l l = [] := by
  show ((dedupKeys (l.map FileChecksum.Path)).filterMap _ ++
    (dedupKeys (l.map FileChecksum.Path)).filterMap _) = []
  rw [List.append_eq_nil]
  constructor
  · rw [List.filterMap_eq_nil_iff]
    intro path hpath
    obtain ⟨ck, hck, hpe, hget⟩ := mapGet_mem_exists (mem_dedupKeys.mp hpath)
    have hne : mapGet l path ≠ "" := by
      rw [hget]
      exact h ck hck
    simp [hne]
  · rw [List.filterMap_eq_nil_iff]
    intro path hpath
    obtain ⟨ck, hck, hpe, hget⟩ := mapGet_mem_exists (mem_dedupKeys.mp hpath)
    have hne : mapGet l path ≠ "" := by
      rw [hget]
      exact h ck hck
    simp [hne]

end Bagit

namespace Bagit

theorem mapGet_ne_empty_mem {l : List FileChecksum} {p : String}
    (h : mapGet l p ≠ "") : p ∈ l.map FileChecksum.Path := by
  by_contra hc
  exact h (mapGet_of_not_mem hc)

theorem mem_compare_iff {t : String} {claimed actual : List FileChecksum} {s : String}
    (h1 : ∀ ck ∈ claimed, ck.Checksum ≠ "") (h2 : ∀ ck ∈ actual, ck.Checksum ≠ "")
    (hn1 : (claimed.map FileChecksum.Path).Nodup)
    (hn2 : (actual.map FileChecksum.Path).Nodup) :
    s ∈ Compare t claimed actual ↔
      (∃ ck ∈ claimed, (∀ ck2 ∈ actual, ck2.Path ≠ ck.Path) ∧ s = missingMsg t ck.Path) ∨
      (∃ ck ∈ claimed, ∃ ck2 ∈ actual, ck2.Path = ck.Path ∧ ck2.Checksum ≠ ck.Checksum ∧
        s = corruptMsg t ck.Path ck.Checksum ck2.Checksum) ∨
      (∃ ck2 ∈ actual, (∀ ck ∈ claimed, ck.Path ≠ ck2.Path) ∧ s = extraMsg t ck2.Path) := by
  show s ∈ ((dedupKeys (claimed.map FileChecksum.Path)).filterMap _ ++
    (dedupKeys (actual.map FileChecksum.Path)).filterMap _) ↔ _
  rw [List.mem_append, List.mem_filterMap, List.mem_filterMap]
  constructor
  · rintro (⟨path, hpath, hf⟩ | ⟨path, hpath, hf⟩)
    · obtain ⟨ck, hck, hpe, hget⟩ := mapGet_mem_exists (mem_dedupKeys.mp hpath)
      by_cases hach : mapGet actual path = ""
      · rw [if_pos hach] at hf
        injection hf with hf2
        refine Or.inl ⟨ck, hck, ?_, by rw [hpe, hf2]⟩
        intro ck2 hck2 hcp
        have hmem : path ∈ actual.map FileChecksum.Path :=
          List.mem_map.mpr ⟨ck2, hck2, hcp.trans hpe⟩
        obtain ⟨ck3, hck3, _, hget3⟩ := mapGet_mem_exists hmem
        exact h2 ck3 hck3 (by rw [← hget3, hach])
      · rw [if_neg hach] at hf
        by_cases hneq : mapGet actual path ≠ mapGet claimed path
        · rw [if_pos hneq] at hf
          injection hf with hf2
          obtain ⟨ck2, hck2, hpe2, hget2⟩ := mapGet_mem_exists (mapGet_ne_empty_mem hach)
          refine Or.inr (Or.inl ⟨ck, hck, ck2, hck2, hpe2.trans hpe.symm, ?_, ?_⟩)
          · rw [← hget2, ← hget]
            exact hneq
          · rw [← hf2, hpe, hget, hget2]
        · rw [if_neg hneq] at hf
          cases hf
    · by_cases hmc : mapGet claimed path = ""
      · rw [if_pos hmc] at hf
        injection hf with hf2
        obtain ⟨ck2, hck2, hpe2, _⟩ := mapGet_mem_exists (mem_dedupKeys.mp hpath)
        refine Or.inr (Or.inr ⟨ck2, hck2, ?_, by rw [hpe2, hf2]⟩)
        intro ck hck hcp
        have hmem : path ∈ claimed.map FileChecksum.Path :=
          List.mem_map.mpr ⟨ck, hck, hcp.trans hpe2⟩
        obtain ⟨ck3, hck3, _, hget3⟩ := mapGet_mem_exists hmem
        exact h1 ck3 hck3 (by rw [← hget3, hmc])
      · rw [if_neg hmc] at hf
        cases hf
  · rintro (⟨ck, hck, habs, hs⟩ | ⟨ck, hck, ck2, hck2, hpe, hcs, hs⟩ |
      ⟨ck2, hck2, habs, hs⟩)
    · refine Or.inl ⟨ck.Path, mem_dedupKeys.mpr (List.mem_map.mpr ⟨ck, hck, rfl⟩), ?_⟩
      have hach : mapGet actual ck.Path = "" := by
        apply mapGet_of_not_mem
        intro hmem
        obtain ⟨ck3, hck3, hpe3⟩ := List.mem_map.mp hmem
        exact habs ck3 hck3 hpe3
      rw [if_pos hach, hs]
    · refine Or.inl ⟨ck.Path, mem_dedupKeys.mpr (List.mem_map.mpr ⟨ck, hck, rfl⟩), ?_⟩
      have hach : mapGet actual ck.Path = ck2.Checksum := by
        rw [← hpe]
        exact mapGet_nodup hn2 hck2
      have hmch : mapGet claimed ck.Path = ck.Checksum := mapGet_nodup hn1 hck
      rw [hach, hmch, if_neg (h2 ck2 hck2), if_pos hcs, hs]
    · refine Or.inr ⟨ck2.Path, mem_dedupKeys.mpr (List.mem_map.mpr ⟨ck2, hck2, rfl⟩), ?_⟩
      have hmc : mapGet claimed ck2.Path = "" := by
        apply mapGet_of_not_mem
        intro hmem
        obtain ⟨ck3, hck3, hpe3⟩ := List.mem_map.mp hmem
        exact habs ck3 hck3 hpe3
      rw [if_pos hmc, hs]

end Bagit

namespace Bagit

/-! ### Walk and checksum-generation lemmas -/

theorem dropPreChars_append : ∀ (pre rest : List Char),
    dropPreChars pre (pre ++ rest) = some rest
  | [], _ => rfl
  | c :: pre, rest => by
    simp [dropPreChars, dropPreChars_append pre rest]

theorem relOf_join (root rel : String) : relOf root (joinPath root rel) = rel := by
  unfold relOf joinPath
  rw [show (root ++ "/" ++ rel).data = (root ++ "/").data ++ rel.data from rfl]
  rw [dropPreChars_append]

/-- Payload checksums as a pure function of the filesystem and hasher:
what a cache-free generation pass computes before sorting. -/
def payloadSums (fs : FS) (h : Hasher) : List FileChecksum :=
  (dataFileList fs).map (fun e => { Path := e.1, Checksum := h.Hash e.2 })

/-- Tag checksums as a pure function of the filesystem and hasher. -/
def tagSums (fs : FS) (h : Hasher) : List FileChecksum :=
  (tagFileList fs).map (fun e => { Path := e.1, Checksum := h.Hash e.2 })

theorem setCache_noop (b : Bag Unit) (hc : b.Cache = noopCacher) (k v : String) :
    setCache b k v = b := by
  obtain ⟨r, hh, c, st, a1, a2, m1, m2⟩ := b
  change c = noopCacher at hc
  subst hc
  rfl

theorem getsum_noop {fs : FS} {b : Bag Unit} (hc : b.Cache = noopCacher)
    {rel content : String} (hl : lookupFile fs rel = some content) :
    getsum fs b (joinPath b.root rel) =
      Except.ok ({ Path := rel, Checksum := b.Hasher.Hash content }, b) := by
  have hg : b.Cache.GetSum b.cacheState rel = none := by rw [hc]; rfl
  simp only [getsum, relOf_join, hg, compute, hl]
  rw [setCache_noop b hc]

theorem walkData_noop {fs : FS} : ∀ (b : Bag Unit), b.Cache = noopCacher →
    ∀ {entries : List (String × String)},
    (∀ e ∈ entries, lookupFile fs e.1 = some e.2) →
    walkData fs b entries =
      ({ b with ActualChecksums := b.ActualChecksums ++
        entries.map (fun e => { Path := e.1, Checksum := b.Hasher.Hash e.2 }) }, none)
  | b, _, [], _ => by simp [walkData]
  | b, hc, e :: rest, hl => by
    simp only [walkData, getsum_noop hc (hl e (by simp))]
    rw [walkData_noop { b with ActualChecksums := b.ActualChecksums ++
      [{ Path := e.1, Checksum := b.Hasher.Hash e.2 }] } hc
      (fun e2 he2 => hl e2 (by simp [he2]))]
    simp

theorem generateChecksums_noop {fs : FS} {b : Bag Unit} (hc : b.Cache = noopCacher)
    (hd : fs.hasDataDir = true)
    (hl : ∀ e ∈ dataFileList fs, lookupFile fs e.1 = some e.2) :
    generateChecksums fs b =
      ({ b with ActualChecksums := sortByPath (payloadSums fs b.Hasher) }, none) := by
  unfold generateChecksums
  rw [hd]
  rw [walkData_noop { b with ActualChecksums := [] } hc hl]
  simp [payloadSums]

theorem walkTags_noop {fs : FS} : ∀ (b : Bag Unit), b.Cache = noopCacher →
    ∀ {entries : List (String × String)},
    (∀ e ∈ entries, lookupFile fs e.1 = some e.2) →
    walkTags fs b entries =
      ({ b with ActualTagSums := b.ActualTagSums ++
        entries.map (fun e => { Path := e.1, Checksum := b.Hasher.Hash e.2 }) }, none)
  | b, _, [], _ => by simp [walkTags]
  | b, hc, e :: rest, hl => by
    simp only [walkTags, getsum_noop hc (hl e (by simp))]
    rw [walkTags_noop { b with ActualTagSums := b.ActualTagSums ++
      [{ Path := e.1, Checksum := b.Hasher.Hash e.2 }] } hc
      (fun e2 he2 => hl e2 (by simp [he2]))]
    simp

theorem generateTagSums_noop {fs : FS} {b : Bag Unit} (hc : b.Cache = noopCacher)
    (hl : ∀ e ∈ tagFileList fs, lookupFile fs e.1 = some e.2) :
    generateTagSums fs b =
      ({ b with ActualTagSums := sortByPath (tagSums fs b.Hasher) }, none) := by
  unfold generateTagSums
  rw [walkTags_noop { b with ActualTagSums := [] } hc hl]
  simp [tagSums]

end Bagit

namespace Bagit

/-! ### Inversion and preservation lemmas (arbitrary cache) -/

theorem getsum_ok_inv {σ : Type} {fs : FS} {b : Bag σ} {path : String}
    {ck : FileChecksum} {b2 : Bag σ}
    (h : getsum fs b path = Except.ok (ck, b2)) :
    ck.Path = relOf b.root path ∧ b2 = setCache b path ck.Checksum := by
  unfold getsum at h
  have h2 : (match b.Cache.GetSum b.cacheState (relOf b.root path) with
    | some sum =>
      Except.ok ({ Path := relOf b.root path, Checksum := sum }, setCache b path sum)
    | none =>
      match compute fs b path (relOf b.root path) with
      | Except.error e => Except.error e
      | Except.ok sum =>
        Except.ok ({ Path := relOf b.root path, Checksum := sum }, setCache b path sum)) =
      Except.ok (ck, b2) := h
  clear h
  cases hg : b.Cache.GetSum b.cacheState (relOf b.root path) with
  | some sum =>
    rw [hg] at h2
    injection h2 with h3
    injection h3 with h4 h5
    subst h4
    exact ⟨rfl, h5.symm⟩
  | none =>
    rw [hg] at h2
    cases hcp : compute fs b path (relOf b.root path) with
    | error e =>
      rw [hcp] at h2
      cases h2
    | ok sum =>
      rw [hcp] at h2
      injection h2 with h3
      injection h3 with h4 h5
      subst h4
      exact ⟨rfl, h5.symm⟩

theorem setCache_fields {σ : Type} (b : Bag σ) (k v : String) :
    (setCache b k v).root = b.root ∧ (setCache b k v).Hasher = b.Hasher ∧
    (setCache b k v).Cache = b.Cache ∧
    (setCache b k v).ActualChecksums = b.ActualChecksums ∧
    (setCache b k v).ActualTagSums = b.ActualTagSums ∧
    (setCache b k v).ManifestChecksums = b.ManifestChecksums ∧
    (setCache b k v).ManifestTagSums = b.ManifestTagSums :=
  ⟨rfl, rfl, rfl, rfl, rfl, rfl, rfl⟩

theorem walkTags_ok : ∀ {σ : Type} {fs : FS} {b : Bag σ}
    {entries : List (String × String)} {b2 : Bag σ},
    walkTags fs b entries = (b2, none) →
    b2.ActualTagSums.map FileChecksum.Path =
      b.ActualTagSums.map FileChecksum.Path ++ entries.map Prod.fst ∧
    b2.root = b.root ∧ b2.Hasher = b.Hasher ∧ b2.Cache = b.Cache ∧
    b2.ActualChecksums = b.ActualChecksums ∧
    b2.ManifestChecksums = b.ManifestChecksums ∧
    b2.ManifestTagSums = b.ManifestTagSums
  | σ, fs, b, [], b2, h => by
    injection h with h1 h2
    subst h1
    simp
  | σ, fs, b, e :: rest, b2, h => by
    simp only [walkTags] at h
    cases hget : getsum fs b (joinPath b.root e.1) with
    | error err =>
      rw [hget] at h
      injection h with h1 h2
      cases h2
    | ok pair =>
      obtain ⟨ck, bmid⟩ := pair
      rw [hget] at h
      obtain ⟨hpath, hbmid⟩ := getsum_ok_inv hget
      have hrel : ck.Path = e.1 := by rw [hpath, relOf_join]
      subst hbmid
      have ihall := walkTags_ok h
      simp only [setCache] at ihall
      obtain ⟨hmap, hroot, hhash, hcache, hac, hmc, hmts⟩ := ihall
      refine ⟨?_, hroot, hhash, hcache, hac, hmc, hmts⟩
      rw [hmap]
      simp [hrel]

theorem generateTagSums_ok {σ : Type} {fs : FS} {b b2 : Bag σ}
    (h : generateTagSums fs b = (b2, none)) :
    (b2.ActualTagSums.map FileChecksum.Path).Perm ((tagFileList fs).map Prod.fst) ∧
    b2.root = b.root ∧ b2.Hasher = b.Hasher ∧ b2.Cache = b.Cache ∧
    b2.ActualChecksums = b.ActualChecksums ∧
    b2.ManifestChecksums = b.ManifestChecksums ∧
    b2.ManifestTagSums = b.ManifestTagSums := by
  unfold generateTagSums at h
  cases hw : walkTags fs { b with ActualTagSums := ([] : List FileChecksum) }
      (tagFileList fs) with
  | mk bw err =>
    rw [hw] at h
    cases err with
    | none =>
      injection h with h1 h2
      subst h1
      obtain ⟨hmap, hroot, hhash, hcache, hac, hmc, hmts⟩ := walkTags_ok hw
      refine ⟨?_, hroot, hhash, hcache, hac, hmc, hmts⟩
      show ((sortByPath bw.ActualTagSums).map FileChecksum.Path).Perm _
      refine ((sortByPath_perm bw.ActualTagSums).map FileChecksum.Path).trans ?_
      rw [hmap]
      simp
    | some e => cases h

end Bagit

namespace Bagit

/-! ### ReadManifests lemmas -/

theorem manifestFilename_update {σ : Type} (b : Bag σ) (mc mts : List FileChecksum) :
    manifestFilename { b with ManifestChecksums := mc, ManifestTagSums := mts } =
      manifestFilename b := rfl

theorem tagManifestFilename_update {σ : Type} (b : Bag σ) (mc mts : List FileChecksum) :
    tagManifestFilename { b with ManifestChecksums := mc, ManifestTagSums := mts } =
      tagManifestFilename b := rfl

theorem readManifests_err_payload {σ : Type} {fs : FS} {b : Bag σ} {e : BagError}
    (h : readSums fs (manifestFilename b) = Except.error e) :
    readManifests fs b = ({ b with ManifestChecksums := [], ManifestTagSums := [] },
      some (BagError.unableToReadManifest (manifestFilename b) e)) := by
  unfold readManifests
  simp only [manifestFilename_update, tagManifestFilename_update, h]

theorem readManifests_ok_both {σ : Type} {fs : FS} {b : Bag σ}
    {sums tsums : List FileChecksum}
    (h1 : readSums fs (manifestFilename b) = Except.ok sums)
    (h2 : readSums fs (tagManifestFilename b) = Except.ok tsums) :
    readManifests fs b =
      ({ b with ManifestChecksums := sums, ManifestTagSums := tsums }, none) := by
  unfold readManifests
  simp only [manifestFilename_update, tagManifestFilename_update, h1, h2]

theorem readManifests_ok_noTag {σ : Type} {fs : FS} {b : Bag σ}
    {sums : List FileChecksum} {p : String}
    (h1 : readSums fs (manifestFilename b) = Except.ok sums)
    (h2 : readSums fs (tagManifestFilename b) = Except.error (BagError.notExist p)) :
    readManifests fs b =
      ({ b with ManifestChecksums := sums, ManifestTagSums := [] }, none) := by
  unfold readManifests
  simp only [manifestFilename_update, tagManifestFilename_update, h1, h2]

theorem readManifests_tag_parse_err {σ : Type} {fs : FS} {b : Bag σ}
    {sums : List FileChecksum} {f l : String}
    (h1 : readSums fs (manifestFilename b) = Except.ok sums)
    (h2 : readSums fs (tagManifestFilename b) =
      Except.error (BagError.invalidManifestLine f l)) :
    readManifests fs b = ({ b with ManifestChecksums := sums, ManifestTagSums := [] },
      some (BagError.unableToReadManifest (tagManifestFilename b)
        (BagError.invalidManifestLine f l))) := by
  unfold readManifests
  simp only [manifestFilename_update, tagManifestFilename_update, h1, h2]

end Bagit

namespace Bagit

/-! ### setFile and filename lemmas -/

theorem setAssoc_lookup_self : ∀ (l : List (String × String)) (k v : String),
    lookupAssoc (setAssoc l k v) k = some v
  | [], k, v => by simp [setAssoc, lookupAssoc]
  | (a, w) :: rest, k, v => by
    by_cases hk : a = k
    · simp [setAssoc, hk, lookupAssoc]
    · simp [setAssoc, hk, lookupAssoc, setAssoc_lookup_self rest k v]

theorem setAssoc_lookup_other : ∀ (l : List (String × String)) (k v p : String),
    p ≠ k → lookupAssoc (setAssoc l k v) p = lookupAssoc l p
  | [], k, v, p, h => by simp [setAssoc, lookupAssoc, Ne.symm h]
  | (a, w) :: rest, k, v, p, h => by
    by_cases hk : a = k
    · subst hk
      simp [setAssoc, lookupAssoc, Ne.symm h]
    · simp only [setAssoc, hk, ite_false, if_neg]
      by_cases hp : a = p
      · simp [lookupAssoc, hp]
      · simp [lookupAssoc, hp, setAssoc_lookup_other rest k v p h]

theorem setAssoc_mem_self : ∀ (l : List (String × String)) (k v : String),
    (k, v) ∈ setAssoc l k v
  | [], _, _ => by simp [setAssoc]
  | (a, w) :: rest, k, v => by
    by_cases hk : a = k
    · simp [setAssoc, hk]
    · simp [setAssoc, hk, setAssoc_mem_self rest k v]

theorem setAssoc_mem_preserve : ∀ {l : List (String × String)} {p c : String},
    (p, c) ∈ l → ∀ {k : String} (v : String), p ≠ k → (p, c) ∈ setAssoc l k v
  | [], _, _, hm, _, _, _ => by cases hm
  | (a, w) :: rest, p, c, hm, k, v, hne => by
    by_cases hk : a = k
    · rcases List.mem_cons.mp hm with heq | htail
      · injection heq with h1 h2
        exact absurd (h1.trans hk) hne
      · simp [setAssoc, hk, htail]
    · rcases List.mem_cons.mp hm with heq | htail
      · simp [setAssoc, hk, heq]
      · simp [setAssoc, hk, setAssoc_mem_preserve htail v hne]

theorem setFile_hasDataDir (fs : FS) (k v : String) :
    (setFile fs k v).hasDataDir = fs.hasDataDir := rfl

theorem strLength_append (a b : String) :
    (a ++ b).data.length = a.data.length + b.data.length := by
  rw [strDataAppend, List.length_append]

theorem manifestFilename_length {σ : Type} (b : Bag σ) :
    (manifestFilename b).data.length = 13 + b.Hasher.Name.data.length := by
  show (("manifest-" ++ b.Hasher.Name) ++ ".txt").data.length = _
  rw [strLength_append, strLength_append]
  have h1 : ("manifest-" : String).data.length = 9 := rfl
  have h2 : (".txt" : String).data.length = 4 := rfl
  omega

theorem tagManifestFilename_length {σ : Type} (b : Bag σ) :
    (tagManifestFilename b).data.length = 16 + b.Hasher.Name.data.length := by
  show (("tagmanifest-" ++ b.Hasher.Name) ++ ".txt").data.length = _
  rw [strLength_append, strLength_append]
  have h1 : ("tagmanifest-" : String).data.length = 12 := rfl
  have h2 : (".txt" : String).data.length = 4 := rfl
  omega

theorem mName_ne_tagName {σ : Type} (b : Bag σ) :
    manifestFilename b ≠ tagManifestFilename b := by
  intro h
  have := congrArg (fun s => s.data.length) h
  simp only [] at this
  rw [manifestFilename_length, tagManifestFilename_length] at this
  omega

theorem mName_ne_bagit {σ : Type} (b : Bag σ) : manifestFilename b ≠ "bagit.txt" := by
  intro h
  have := congrArg (fun s => s.data.length) h
  simp only [] at this
  rw [manifestFilename_length] at this
  have h2 : ("bagit.txt" : String).data.length = 9 := rfl
  rw [h2] at this
  omega

theorem tagName_ne_bagit {σ : Type} (b : Bag σ) :
    tagManifestFilename b ≠ "bagit.txt" := by
  intro h
  have := congrArg (fun s => s.data.length) h
  simp only [] at this
  rw [tagManifestFilename_length] at this
  have h2 : ("bagit.txt" : String).data.length = 9 := rfl
  rw [h2] at this
  omega

theorem mName_not_tagmatch {σ : Type} (b : Bag σ) :
    isTagManifestMatch (manifestFilename b) = false := by
  have h : startsWithB "tagmanifest-" (manifestFilename b) = false := by
    show (dropPreChars ("tagmanifest-" : String).data (manifestFilename b).data).isSome = false
    rw [show ("tagmanifest-" : String).data = 't' :: ("agmanifest-" : String).data from rfl]
    rw [show (manifestFilename b).data =
      'm' :: (("anifest-" ++ b.Hasher.Name ++ ".txt") : String).data from rfl]
    simp [dropPreChars]
  simp [isTagManifestMatch, h]

theorem bagit_not_tagmatch : isTagManifestMatch "bagit.txt" = false := by decide

theorem hasSlash_append (a b : List Char) :
    hasSlash (a ++ b) = (hasSlash a || hasSlash b) := by
  induction a with
  | nil => simp [hasSlash]
  | cons c cs ih =>
    by_cases hc : c = '/'
    · simp [hasSlash, hc]
    · simp [hasSlash, hc, ih]

theorem mName_noSlash {σ : Type} (b : Bag σ) (h : hasSlash b.Hasher.Name.data = false) :
    hasSlash (manifestFilename b).data = false := by
  show hasSlash ((("manifest-" ++ b.Hasher.Name) ++ ".txt") : String).data = false
  rw [strDataAppend, strDataAppend, hasSlash_append, hasSlash_append]
  have h1 : hasSlash ("manifest-" : String).data = false := by decide
  have h2 : hasSlash (".txt" : String).data = false := by decide
  rw [h1, h2, h]
  rfl

theorem tagName_matches {σ : Type} (b : Bag σ)
    (h : hasSlash b.Hasher.Name.data = false) :
    isTagManifestMatch (tagManifestFilename b) = true := by
  have h1 : startsWithB "tagmanifest-" (tagManifestFilename b) = true := by
    show (dropPreChars ("tagmanifest-" : String).data (tagManifestFilename b).data).isSome = true
    rw [show (tagManifestFilename b).data =
      ("tagmanifest-" : String).data ++ (b.Hasher.Name ++ ".txt").data by
        rw [show tagManifestFilename b = "tagmanifest-" ++ (b.Hasher.Name ++ ".txt") by
          show ("tagmanifest-" ++ b.Hasher.Name) ++ ".txt" = _
          rw [String.append_assoc]]
        rw [strDataAppend]]
    rw [dropPreChars_append]
    rfl
  have h2 : endsWithB ".txt" (tagManifestFilename b) = true := by
    show (dropPreChars (".txt" : String).data.reverse
      (tagManifestFilename b).data.reverse).isSome = true
    rw [show (tagManifestFilename b).data =
      ("tagmanifest-" ++ b.Hasher.Name).data ++ (".txt" : String).data from rfl]
    rw [List.reverse_append, dropPreChars_append]
    rfl
  have h3 : (tagManifestFilename b).data.length = 16 + b.Hasher.Name.data.length :=
    tagManifestFilename_length b
  have hdata : (tagManifestFilename b).data =
      ("tagmanifest-" : String).data ++ (b.Hasher.Name.data ++ (".txt" : String).data) := by
    rw [show (tagManifestFilename b).data =
      ("tagmanifest-" ++ b.Hasher.Name).data ++ (".txt" : String).data from rfl]
    rw [strDataAppend, List.append_assoc]
  have h4 : List.take (16 + b.Hasher.Name.data.length - 16)
      (List.drop 12 (tagManifestFilename b).data) = b.Hasher.Name.data := by
    rw [hdata]
    rw [show (16 + b.Hasher.Name.data.length - 16) = b.Hasher.Name.data.length by omega]
    rw [show List.drop 12 (("tagmanifest-" : String).data ++
      (b.Hasher.Name.data ++ (".txt" : String).data)) =
      b.Hasher.Name.data ++ (".txt" : String).data by
        rw [show (12 : Nat) = ("tagmanifest-" : String).data.length from rfl]
        exact List.drop_left _ _]
    exact List.take_left _ _
  simp only [isTagManifestMatch, h1, h2, h3, h4, h]
  simp

end Bagit

namespace Bagit

/-! ### Totality and success-shape lemmas for the write sequence -/

theorem lookupAssoc_mem_isSome : ∀ {l : List (String × String)} {k v : String},
    (k, v) ∈ l → (lookupAssoc l k).isSome = true
  | [], _, _, hm => by cases hm
  | (a, w) :: rest, k, v, hm => by
    by_cases hk : a = k
    · simp [lookupAssoc, hk]
    · rcases List.mem_cons.mp hm with heq | htail
      · injection heq with h1 h2
        exact absurd h1.symm hk
      · simp [lookupAssoc, hk, lookupAssoc_mem_isSome htail]

theorem getsum_total {σ : Type} {fs : FS} (b : Bag σ) (path : String)
    (h : (lookupFile fs (relOf b.root path)).isSome = true) :
    ∃ ck b2, getsum fs b path = Except.ok (ck, b2) ∧
      ck.Path = relOf b.root path ∧ b2 = setCache b path ck.Checksum := by
  cases hg : b.Cache.GetSum b.cacheState (relOf b.root path) with
  | some sum =>
    refine ⟨{ Path := relOf b.root path, Checksum := sum }, setCache b path sum, ?_, rfl, rfl⟩
    simp only [getsum, hg]
  | none =>
    cases hl : lookupFile fs (relOf b.root path) with
    | none => rw [hl] at h; cases h
    | some content =>
      refine ⟨{ Path := relOf b.root path, Checksum := b.Hasher.Hash content },
        setCache b path (b.Hasher.Hash content), ?_, rfl, rfl⟩
      simp only [getsum, hg, compute, hl]

theorem walkData_total {σ : Type} {fs : FS} : ∀ (b : Bag σ)
    {entries : List (String × String)},
    (∀ e ∈ entries, (lookupFile fs e.1).isSome = true) →
    ∃ b2, walkData fs b entries = (b2, none) ∧
      b2.root = b.root ∧ b2.Hasher = b.Hasher ∧ b2.Cache = b.Cache ∧
      b2.ActualTagSums = b.ActualTagSums ∧
      b2.ManifestChecksums = b.ManifestChecksums ∧
      b2.ManifestTagSums = b.ManifestTagSums
  | b, [], _ => ⟨b, rfl, rfl, rfl, rfl, rfl, rfl, rfl⟩
  | b, e :: rest, hl => by
    have hrel : (lookupFile fs (relOf b.root (joinPath b.root e.1))).isSome = true := by
      rw [relOf_join]
      exact hl e (by simp)
    obtain ⟨ck, bmid, hget, hpath, hbmid⟩ := getsum_total b (joinPath b.root e.1) hrel
    have hl2 : ∀ e2 ∈ rest, (lookupFile fs e2.1).isSome = true :=
      fun e2 he2 => hl e2 (List.mem_cons_of_mem _ he2)
    obtain ⟨b2, hwalk, hroot, hhash, hcache, hats, hmc, hmts⟩ :=
      walkData_total { bmid with ActualChecksums := bmid.ActualChecksums ++ [ck] } hl2
    subst hbmid
    refine ⟨b2, ?_, hroot, hhash, hcache, hats, hmc, hmts⟩
    simp only [walkData, hget]
    exact hwalk

theorem generateChecksums_total {σ : Type} {fs : FS} (b : Bag σ)
    (hd : fs.hasDataDir = true) :
    ∃ b2, generateChecksums fs b = (b2, none) ∧
      b2.root = b.root ∧ b2.Hasher = b.Hasher ∧ b2.Cache = b.Cache ∧
      b2.ActualTagSums = b.ActualTagSums ∧
      b2.ManifestChecksums = b.ManifestChecksums ∧
      b2.ManifestTagSums = b.ManifestTagSums := by
  have hl : ∀ e ∈ dataFileList fs, (lookupFile fs e.1).isSome = true := by
    intro e he
    have hmem : e ∈ fs.files := List.mem_of_mem_filter he
    obtain ⟨e1, e2⟩ := e
    exact lookupAssoc_mem_isSome hmem
  obtain ⟨bw, hwalk, hroot, hhash, hcache, hats, hmc, hmts⟩ :=
    walkData_total { b with ActualChecksums := ([] : List FileChecksum) } hl
  refine ⟨{ bw with ActualChecksums := sortByPath bw.ActualChecksums }, ?_,
    hroot, hhash, hcache, hats, hmc, hmts⟩
  unfold generateChecksums
  rw [hd]
  simp only [Bool.true_eq_false, ite_false, if_neg]
  rw [hwalk]

theorem generateTagSums_total {σ : Type} {fs : FS} (b : Bag σ) :
    ∃ b2, generateTagSums fs b = (b2, none) ∧
      b2.root = b.root ∧ b2.Hasher = b.Hasher ∧ b2.Cache = b.Cache ∧
      b2.ActualChecksums = b.ActualChecksums ∧
      b2.ManifestChecksums = b.ManifestChecksums ∧
      b2.ManifestTagSums = b.ManifestTagSums := by
  have hl : ∀ e ∈ tagFileList fs, (lookupFile fs e.1).isSome = true := by
    intro e he
    have hmem : e ∈ fs.files := List.mem_of_mem_filter he
    obtain ⟨e1, e2⟩ := e
    exact lookupAssoc_mem_isSome hmem
  have hgen : ∀ (c : Bag σ), c.root = b.root → c.Hasher = b.Hasher → c.Cache = b.Cache →
      c.ActualChecksums = b.ActualChecksums → c.ManifestChecksums = b.ManifestChecksums →
      c.ManifestTagSums = b.ManifestTagSums →
      ∀ (entries : List (String × String)),
      (∀ e ∈ entries, (lookupFile fs e.1).isSome = true) →
      ∃ b2, walkTags fs c entries = (b2, none) ∧
        b2.root = b.root ∧ b2.Hasher = b.Hasher ∧ b2.Cache = b.Cache ∧
        b2.ActualChecksums = b.ActualChecksums ∧
        b2.ManifestChecksums = b.ManifestChecksums ∧
        b2.ManifestTagSums = b.ManifestTagSums := by
    intro c hroot hhash hcache hac hmc hmts entries
    induction entries generalizing c with
    | nil => exact fun _ => ⟨c, rfl, hroot, hhash, hcache, hac, hmc, hmts⟩
    | cons e rest ih =>
      intro hl2
      have hrel : (lookupFile fs (relOf c.root (joinPath c.root e.1))).isSome = true := by
        rw [relOf_join]
        exact hl2 e (by simp)
      obtain ⟨ck, bmid, hget, hpath, hbmid⟩ := getsum_total c (joinPath c.root e.1) hrel
      obtain ⟨b2, hwalk, f1, f2, f3, f4, f5, f6⟩ :=
        ih { bmid with ActualTagSums := bmid.ActualTagSums ++ [ck] }
          (by rw [hbmid]; exact hroot) (by rw [hbmid]; exact hhash)
          (by rw [hbmid]; exact hcache) (by rw [hbmid]; exact hac)
          (by rw [hbmid]; exact hmc) (by rw [hbmid]; exact hmts)
          (fun e2 he2 => hl2 e2 (by simp [he2]))
      refine ⟨b2, ?_, f1, f2, f3, f4, f5, f6⟩
      simp only [walkTags, hget]
      exact hwalk
  obtain ⟨bw, hwalk, f1, f2, f3, f4, f5, f6⟩ :=
    hgen { b with ActualTagSums := ([] : List FileChecksum) } rfl rfl rfl rfl rfl rfl
      (tagFileList fs) hl
  refine ⟨{ bw with ActualTagSums := sortByPath bw.ActualTagSums }, ?_, f1, f2, f3, f4, f5, f6⟩
  unfold generateTagSums
  rw [hwalk]

theorem writeManifest_ok_inv {σ : Type} {fs : FS} {b : Bag σ} {fs2 : FS}
    (h : writeManifest fs b = (fs2, none)) :
    mustNotExist fs (manifestFilename b) = true ∧
    fs2 = setFile fs (manifestFilename b) (encodeSums b.ActualChecksums) := by
  unfold writeManifest at h
  by_cases hm : mustNotExist fs (manifestFilename b) = false
  · rw [if_pos hm] at h
    cases h
  · rw [if_neg hm] at h
    injection h with h1 h2
    exact ⟨Bool.not_eq_false _ ▸ (by simpa using hm), h1.symm⟩

theorem writeTagManifest_ok_inv {σ : Type} {fs : FS} {b : Bag σ} {fs2 : FS}
    (h : writeTagManifest fs b = (fs2, none)) :
    mustNotExist fs (tagManifestFilename b) = true ∧
    fs2 = setFile fs (tagManifestFilename b) (encodeSums b.ActualTagSums) := by
  unfold writeTagManifest at h
  by_cases hm : mustNotExist fs (tagManifestFilename b) = false
  · rw [if_pos hm] at h
    cases h
  · rw [if_neg hm] at h
    injection h with h1 h2
    exact ⟨Bool.not_eq_false _ ▸ (by simpa using hm), h1.symm⟩

theorem writeTagFiles_ok_inv {σ : Type} {fs : FS} {b : Bag σ} {fs2 : FS} {b2 : Bag σ}
    (h : writeTagFiles (fs, b) = ((fs2, b2), none)) :
    ∃ b1 fsA fsB,
      generateChecksums fs b = (b1, none) ∧
      writeManifest fs b1 = (fsA, none) ∧
      writeBagitFile fsA b1 = (fsB, none) ∧
      generateTagSums fsB b1 = (b2, none) ∧
      writeTagManifest fsB b2 = (fs2, none) := by
  unfold writeTagFiles at h
  cases h1 : stGenerateChecksums (fs, b) with
  | mk st1 e1 =>
    cases e1 with
    | some e =>
      simp only [h1] at h
      injection h with hp he
      cases he
    | none =>
      simp only [h1] at h
      cases h2 : stWriteManifest st1 with
      | mk st2 e2 =>
        cases e2 with
        | some e =>
          simp only [h2] at h
          injection h with hp he
          cases he
        | none =>
          simp only [h2] at h
          cases h3 : stWriteBagitFile st2 with
          | mk st3 e3 =>
            cases e3 with
            | some e =>
              simp only [h3] at h
              injection h with hp he
              cases he
            | none =>
              simp only [h3] at h
              cases h4 : stGenerateTagSums st3 with
              | mk st4 e4 =>
                cases e4 with
                | some e =>
                  simp only [h4] at h
                  injection h with hp he
                  cases he
                | none =>
                  simp only [h4] at h
                  obtain ⟨fsx, bx⟩ := st1
                  obtain ⟨fsy, by2⟩ := st2
                  obtain ⟨fsz, bz⟩ := st3
                  obtain ⟨fsw, bw⟩ := st4
                  simp only [stGenerateChecksums, Prod.mk.injEq] at h1
                  simp only [stWriteManifest, Prod.mk.injEq] at h2
                  simp only [stWriteBagitFile, Prod.mk.injEq] at h3
                  simp only [stGenerateTagSums, Prod.mk.injEq] at h4
                  simp only [stWriteTagManifest, Prod.mk.injEq] at h
                  obtain ⟨⟨hfsx, hbx⟩, he1⟩ := h1
                  obtain ⟨⟨hfsy, hby⟩, he2⟩ := h2
                  obtain ⟨⟨hfsz, hbz⟩, he3⟩ := h3
                  obtain ⟨⟨hfsw, hbw⟩, he4⟩ := h4
                  obtain ⟨⟨hfs2, hb2⟩, he5⟩ := h
                  subst hfsx
                  subst hfsy
                  subst hfsz
                  subst hfsw
                  subst hbx
                  subst hby
                  subst hbz
                  subst hbw
                  subst hfs2
                  subst hb2
                  exact ⟨_, _, _, Prod.ext rfl he1, Prod.ext rfl he2,
                    Prod.ext rfl he3, Prod.ext rfl he4, Prod.ext rfl he5⟩

end Bagit

namespace Bagit

theorem readSums_ok_sorted {fs : FS} {f : String} {l : List FileChecksum}
    (h : readSums fs f = Except.ok l) : pathSortedB l = true := by
  unfold readSums at h
  cases hl : lookupFile fs f with
  | none =>
    simp only [hl] at h
    cases h
  | some text =>
    simp only [hl] at h
    unfold parseManifestText at h
    cases hp : parseLines f (splitNl text) with
    | error e =>
      simp only [hp] at h
      cases h
    | ok sums =>
      simp only [hp] at h
      injection h with h2
      rw [← h2]
      exact sortByPath_sorted sums

theorem readManifests_ok_inv {σ : Type} {fs : FS} {b b2 : Bag σ}
    (h : readManifests fs b = (b2, none)) :
    (∃ sums, readSums fs (manifestFilename b) = Except.ok sums ∧
      b2.ManifestChecksums = sums) ∧
    (b2.ManifestTagSums = [] ∨
      readSums fs (tagManifestFilename b) = Except.ok b2.ManifestTagSums) ∧
    b2.ActualChecksums = b.ActualChecksums ∧ b2.ActualTagSums = b.ActualTagSums ∧
    b2.Hasher = b.Hasher ∧ b2.root = b.root ∧ b2.Cache = b.Cache ∧
    b2.cacheState = b.cacheState := by
  unfold readManifests at h
  simp only [manifestFilename_update, tagManifestFilename_update] at h
  cases hE : readSums fs (manifestFilename b) with
  | error e =>
    rw [hE] at h
    injection h with hp he
    cases he
  | ok sums =>
    rw [hE] at h
    cases hE2 : readSums fs (tagManifestFilename b) with
    | error e =>
      rw [hE2] at h
      cases e with
      | notExist p =>
        injection h with hp he
        subst hp
        exact ⟨⟨sums, rfl, rfl⟩, Or.inl rfl, rfl, rfl, rfl, rfl, rfl, rfl⟩
      | invalidManifestLine f l =>
        injection h with hp he
        cases he
      | unableToReadManifest f c =>
        injection h with hp he
        cases he
      | notABag r =>
        injection h with hp he
        cases he
      | manifestExists f =>
        injection h with hp he
        cases he
      | tagManifestExists f =>
        injection h with hp he
        cases he
      | emptyManifest f =>
        injection h with hp he
        cases he
      | cannotOpen p =>
        injection h with hp he
        cases he
      | errGettingChecksum p c =>
        injection h with hp he
        cases he
    | ok tsums =>
      rw [hE2] at h
      injection h with hp he
      subst hp
      exact ⟨⟨sums, rfl, rfl⟩, Or.inr rfl, rfl, rfl, rfl, rfl, rfl, rfl⟩

end Bagit

namespace Bagit

/-! ### Concrete fixtures for witnesses and counterexamples -/

/-- Toy hasher: a constant digest function (the digest algorithms are opaque
to this subsystem) under the standard algorithm name. -/
def hashW : Hasher := { Hash := fun _ => "aaaa", Name := "sha256" }

/-- A default-constructed bag (mirrors `New`: no-op cache). -/
def bagW : Bag Unit :=
  { root := "/bag", Hasher := hashW, Cache := noopCacher, cacheState := () }

/-- A small bag filesystem: two payload files and one extra tag file. -/
def fsW : FS :=
  { files := [("data/b.txt", "y"), ("data/a.txt", "x"), ("notes.txt", "n")],
    hasDataDir := true }

/-- A cache implementation that records every `SetSum` call. -/
def recCacher : Cacher (List (String × String)) :=
  { GetSum := fun st k => lookupAssoc st k, SetSum := fun st k v => st ++ [(k, v)] }

/-- A bag with the recording cache, initially empty. -/
def bagRec : Bag (List (String × String)) :=
  { root := "/bag", Hasher := hashW, Cache := recCacher, cacheState := [] }

/-- A bag whose cache is pre-populated with an (incorrect) digest for the
relative path `data/a.txt`. -/
def bagPre : Bag (List (String × String)) :=
  { root := "/bag", Hasher := hashW, Cache := recCacher,
    cacheState := [("data/a.txt", "WRONG")] }

/-! ### C4 -/

/-- C4 (corrected): `getsum` first queries the cache keyed by the file's
bag-root-relative path; on a hit the cached digest (even an incorrect one)
is returned without recomputing — the file need not even be readable; but
in all cases the resulting digest is stored back into the cache keyed by
the full `path` argument (the absolute path), not by the relative path
used for the lookup. -/
theorem c4_cache_get_rel_set_abs {σ : Type} (fs : FS) (b : Bag σ) (path : String) :
    (∀ v, b.Cache.GetSum b.cacheState (relOf b.root path) = some v →
      getsum fs b path =
        Except.ok ({ Path := relOf b.root path, Checksum := v }, setCache b path v)) ∧
    (∀ content, b.Cache.GetSum b.cacheState (relOf b.root path) = none →
      lookupFile fs (relOf b.root path) = some content →
      getsum fs b path =
        Except.ok ({ Path := relOf b.root path, Checksum := b.Hasher.Hash content },
          setCache b path (b.Hasher.Hash content))) := by
  constructor
  · intro v hv
    simp only [getsum, hv]
  · intro content h0 hl
    simp only [getsum, h0, compute, hl]

/-- C4 counterexample: with a recording cache and root `/bag`, hashing
`/bag/data/a.txt` stores the digest under the absolute key
`/bag/data/a.txt`, so a subsequent cache lookup under the relative key
`data/a.txt` (the key `getsum` reads) misses — refuting the claim that
the store uses the same relative key as the lookup. -/
theorem c4_counterexample :
    getsum fsW bagRec "/bag/data/a.txt" =
      Except.ok ({ Path := "data/a.txt", Checksum := "aaaa" },
        { bagRec with cacheState := [("/bag/data/a.txt", "aaaa")] }) ∧
    recCacher.GetSum [("/bag/data/a.txt", "aaaa")] "data/a.txt" = none :=
  ⟨rfl, rfl⟩

/-- C4 witness: a cache hit returns the pre-populated wrong digest without
recomputation, and a miss computes and stores under the absolute key. -/
theorem c4_cache_get_rel_set_abs_witness :
    getsum fsW bagPre "/bag/data/a.txt" =
      Except.ok ({ Path := relOf bagPre.root "/bag/data/a.txt", Checksum := "WRONG" },
        setCache bagPre "/bag/data/a.txt" "WRONG") ∧
    getsum fsW bagRec "/bag/data/a.txt" =
      Except.ok ({ Path := relOf bagRec.root "/bag/data/a.txt",
                   Checksum := bagRec.Hasher.Hash "x" },
        setCache bagRec "/bag/data/a.txt" (bagRec.Hasher.Hash "x")) :=
  ⟨(c4_cache_get_rel_set_abs fsW bagPre "/bag/data/a.txt").1 "WRONG" rfl,
   (c4_cache_get_rel_set_abs fsW bagRec "/bag/data/a.txt").2 "x" rfl rfl⟩

/-! ### C10 -/

/-- C10 (confirmed): `Compare` tests presence by whether the looked-up digest
equals the empty string, not by map membership: a path present in `actual`
with an empty digest is reported as a missing file, and a path present in
`claimed` with an empty digest is reported as an extra file when it is also
present in `actual`. -/
theorem c10_empty_digest_sentinel (t : String) (claimed actual : List FileChecksum)
    (p : String) :
    ((actual.map FileChecksum.Path).Nodup →
      { Path := p, Checksum := "" } ∈ actual → p ∈ claimed.map FileChecksum.Path →
      missingMsg t p ∈ Compare t claimed actual) ∧
    ((claimed.map FileChecksum.Path).Nodup →
      { Path := p, Checksum := "" } ∈ claimed → p ∈ actual.map FileChecksum.Path →
      extraMsg t p ∈ Compare t claimed actual) := by
  constructor
  · intro hn hmem hp
    have hach : mapGet actual p = "" := mapGet_nodup hn hmem
    show missingMsg t p ∈
      (dedupKeys (claimed.map FileChecksum.Path)).filterMap _ ++
        (dedupKeys (actual.map FileChecksum.Path)).filterMap _
    refine List.mem_append.mpr
      (Or.inl (List.mem_filterMap.mpr ⟨p, mem_dedupKeys.mpr hp, ?_⟩))
    simp [hach]
  · intro hn hmem hp
    have hmch : mapGet claimed p = "" := mapGet_nodup hn hmem
    show extraMsg t p ∈
      (dedupKeys (claimed.map FileChecksum.Path)).filterMap _ ++
        (dedupKeys (actual.map FileChecksum.Path)).filterMap _
    refine List.mem_append.mpr
      (Or.inr (List.mem_filterMap.mpr ⟨p, mem_dedupKeys.mpr hp, ?_⟩))
    simp [hmch]

/-- C10 witness at concrete lists. -/
theorem c10_empty_digest_sentinel_witness :
    missingMsg "m" "a" ∈ Compare "m" [{ Path := "a", Checksum := "1" }]
      [{ Path := "a", Checksum := "" }] ∧
    extraMsg "m" "a" ∈ Compare "m" [{ Path := "a", Checksum := "" }]
      [{ Path := "a", Checksum := "1" }] :=
  ⟨(c10_empty_digest_sentinel "m" [{ Path := "a", Checksum := "1" }]
      [{ Path := "a", Checksum := "" }] "a").1 (by decide) (by decide) (by decide),
   (c10_empty_digest_sentinel "m" [{ Path := "a", Checksum := "" }]
      [{ Path := "a", Checksum := "1" }] "a").2 (by decide) (by decide) (by decide)⟩

/-! ### C7 -/

/-- C7 (confirmed): manifest decoding splits on newlines, skips blank lines,
fails with an invalid-manifest-line error whenever some non-blank line does
not have exactly two whitespace-separated fields, and otherwise returns the
(checksum, path) pairs sorted ascending by path regardless of the order of
the input lines (stated as: the result is a path-sorted permutation of the
line pairs). -/
theorem c7_manifest_decode (fname text : String) :
    (∀ e, parseManifestText fname text = Except.error e →
      ∃ line ∈ splitNl text, line ≠ "" ∧ (goFields line).length ≠ 2 ∧
        e = BagError.invalidManifestLine fname line) ∧
    ((∀ line ∈ splitNl text, line = "" ∨ (goFields line).length = 2) →
      parseManifestText fname text = Except.ok (sortByPath (linePairs (splitNl text))) ∧
      pathSortedB (sortByPath (linePairs (splitNl text))) = true ∧
      (sortByPath (linePairs (splitNl text))).Perm (linePairs (splitNl text))) := by
  constructor
  · intro e he
    unfold parseManifestText at he
    cases hp : parseLines fname (splitNl text) with
    | error e2 =>
      simp only [hp] at he
      injection he with h2
      subst h2
      exact parseLines_error hp
    | ok sums =>
      simp only [hp] at he
      exact Except.noConfusion he
  · intro hwf
    have hp : parseLines fname (splitNl text) = Except.ok (linePairs (splitNl text)) :=
      parseLines_ok_of_wf hwf
    refine ⟨?_, sortByPath_sorted _, sortByPath_perm _⟩
    simp only [parseManifestText, hp]

/-- C7 witness: a malformed line is rejected with the invalid-line error, and a
well-formed two-line manifest decodes to a sorted permutation of its pairs. -/
theorem c7_manifest_decode_witness :
    (∃ line ∈ splitNl "badline\n", line ≠ "" ∧ (goFields line).length ≠ 2 ∧
      BagError.invalidManifestLine "f" "badline" = BagError.invalidManifestLine "f" line) ∧
    (parseManifestText "f" "22  bb\n11  aa\n" =
      Except.ok (sortByPath (linePairs (splitNl "22  bb\n11  aa\n"))) ∧
      pathSortedB (sortByPath (linePairs (splitNl "22  bb\n11  aa\n"))) = true ∧
      (sortByPath (linePairs (splitNl "22  bb\n11  aa\n"))).Perm
        (linePairs (splitNl "22  bb\n11  aa\n"))) :=
  ⟨(c7_manifest_decode "f" "badline\n").1 (BagError.invalidManifestLine "f" "badline")
    rfl,
   (c7_manifest_decode "f" "22  bb\n11  aa\n").2 (by decide)⟩

end Bagit

namespace Bagit

/-! ### C6 -/

/-- C6 counterexample: with a path present in both lists carrying equal
(empty) digests, `Compare` reports discrepancies — refuting the clause
that a path present with equal digests in both lists yields none. -/
theorem c6_counterexample :
    missingMsg "manifest" "a" ∈
      Compare "manifest" [{ Path := "a", Checksum := "" }]
        [{ Path := "a", Checksum := "" }] := by decide

/-- C6 (amended): for checksum lists whose digests are all non-empty and
whose paths are duplicate-free, `Compare` reports, as a set, exactly: a
missing-file message for each claimed path absent from actual, a
corrupt-file message for each claimed path present in actual with a
different digest, and an extra-file message for each actual path absent
from claimed; a path present in both with equal digests contributes
nothing. -/
theorem c6_compare_classification {t : String} {claimed actual : List FileChecksum}
    {s : String}
    (h1 : ∀ ck ∈ claimed, ck.Checksum ≠ "") (h2 : ∀ ck ∈ actual, ck.Checksum ≠ "")
    (hn1 : (claimed.map FileChecksum.Path).Nodup)
    (hn2 : (actual.map FileChecksum.Path).Nodup) :
    s ∈ Compare t claimed actual ↔
      (∃ ck ∈ claimed, (∀ ck2 ∈ actual, ck2.Path ≠ ck.Path) ∧ s = missingMsg t ck.Path) ∨
      (∃ ck ∈ claimed, ∃ ck2 ∈ actual, ck2.Path = ck.Path ∧ ck2.Checksum ≠ ck.Checksum ∧
        s = corruptMsg t ck.Path ck.Checksum ck2.Checksum) ∨
      (∃ ck2 ∈ actual, (∀ ck ∈ claimed, ck.Path ≠ ck2.Path) ∧ s = extraMsg t ck2.Path) :=
  mem_compare_iff h1 h2 hn1 hn2

/-- C6 witness: the classification applied at concrete lists, used in the
backward direction to derive a missing-file report. -/
theorem c6_compare_classification_witness :
    missingMsg "manifest" "b" ∈
      Compare "manifest"
        [{ Path := "a", Checksum := "1" }, { Path := "b", Checksum := "2" }]
        [{ Path := "a", Checksum := "1" }, { Path := "c", Checksum := "3" }] :=
  (c6_compare_classification (by decide) (by decide) (by decide) (by decide)).mpr
    (Or.inl ⟨{ Path := "b", Checksum := "2" }, by decide, by decide, rfl⟩)

/-! ### C5 -/

/-- C5 (confirmed): `ReadManifests` fails whenever the payload manifest is
absent or malformed; a nonexistent tag manifest is tolerated with
`ManifestTagSums` left empty, while a tag-manifest parse error is fatal;
and `Validate` fails with a nil discrepancy list when the payload
manifest parses to zero entries. -/
theorem c5_read_manifest_errors {σ : Type} (fs : FS) (b : Bag σ) :
    (lookupFile fs (manifestFilename b) = none →
      (readManifests fs b).2 = some (BagError.unableToReadManifest (manifestFilename b)
        (BagError.notExist (manifestFilename b)))) ∧
    (∀ text f l, lookupFile fs (manifestFilename b) = some text →
      parseManifestText (manifestFilename b) text =
        Except.error (BagError.invalidManifestLine f l) →
      (readManifests fs b).2 = some (BagError.unableToReadManifest (manifestFilename b)
        (BagError.invalidManifestLine f l))) ∧
    (∀ sums, readSums fs (manifestFilename b) = Except.ok sums →
      lookupFile fs (tagManifestFilename b) = none →
      readManifests fs b =
        ({ b with ManifestChecksums := sums, ManifestTagSums := [] }, none)) ∧
    (∀ sums f l, readSums fs (manifestFilename b) = Except.ok sums →
      ∀ text2, lookupFile fs (tagManifestFilename b) = some text2 →
      parseManifestText (tagManifestFilename b) text2 =
        Except.error (BagError.invalidManifestLine f l) →
      (readManifests fs b).2 = some (BagError.unableToReadManifest (tagManifestFilename b)
        (BagError.invalidManifestLine f l))) ∧
    (∀ b2, readManifests fs b = (b2, none) → b2.ManifestChecksums = [] →
      validate fs b = (([], some (BagError.emptyManifest (manifestFilename b2))), b2)) := by
  refine ⟨?_, ?_, ?_, ?_, ?_⟩
  · intro hlk
    have h : readSums fs (manifestFilename b) =
        Except.error (BagError.notExist (manifestFilename b)) := by
      unfold readSums
      rw [hlk]
    rw [readManifests_err_payload h]
  · intro text f l hlk hpe
    have h : readSums fs (manifestFilename b) =
        Except.error (BagError.invalidManifestLine f l) := by
      unfold readSums
      rw [hlk]
      exact hpe
    rw [readManifests_err_payload h]
  · intro sums h1 hlk
    have h2 : readSums fs (tagManifestFilename b) =
        Except.error (BagError.notExist (tagManifestFilename b)) := by
      unfold readSums
      rw [hlk]
    exact readManifests_ok_noTag h1 h2
  · intro sums f l h1 text2 hlk hpe
    have h2 : readSums fs (tagManifestFilename b) =
        Except.error (BagError.invalidManifestLine f l) := by
      unfold readSums
      rw [hlk]
      exact hpe
    rw [readManifests_tag_parse_err h1 h2]
  · intro b2 h hmc
    unfold validate
    simp [h, hmc]

/-- Fixture filesystems for the C5 witness. -/
def fsNoMan : FS := { files := [], hasDataDir := true }

/-- Fixture: payload manifest present but malformed. -/
def fsBadMan : FS := { files := [("manifest-sha256.txt", "bad\n")], hasDataDir := true }

/-- Fixture: well-formed payload manifest, no tag manifest. -/
def fsGoodMan : FS :=
  { files := [("manifest-sha256.txt", "aaaa  data/a.txt\n")], hasDataDir := true }

/-- Fixture: well-formed payload manifest, malformed tag manifest. -/
def fsBadTag : FS :=
  { files := [("manifest-sha256.txt", "aaaa  data/a.txt\n"),
      ("tagmanifest-sha256.txt", "zz\n")], hasDataDir := true }

/-- Fixture: payload manifest present but empty. -/
def fsEmptyMan : FS := { files := [("manifest-sha256.txt", "")], hasDataDir := true }

/-- Fixture: the bag state after a successful manifest-only read. -/
def bagWgood : Bag Unit :=
  { bagW with
    ManifestChecksums := [{ Path := "data/a.txt", Checksum := "aaaa" }],
    ManifestTagSums := [] }

/-- C5 witness: four concrete filesystems exercising each branch, plus the
empty-manifest Validate failure. -/
theorem c5_read_manifest_errors_witness :
    ((readManifests fsNoMan bagW).2 =
      some (BagError.unableToReadManifest "manifest-sha256.txt"
        (BagError.notExist "manifest-sha256.txt"))) ∧
    ((readManifests fsBadMan bagW).2 =
      some (BagError.unableToReadManifest "manifest-sha256.txt"
        (BagError.invalidManifestLine "manifest-sha256.txt" "bad"))) ∧
    (readManifests fsGoodMan bagW = (bagWgood, none)) ∧
    ((readManifests fsBadTag bagW).2 =
      some (BagError.unableToReadManifest "tagmanifest-sha256.txt"
        (BagError.invalidManifestLine "tagmanifest-sha256.txt" "zz"))) ∧
    (validate fsEmptyMan bagW =
      (([], some (BagError.emptyManifest "manifest-sha256.txt")), bagW)) :=
  ⟨(c5_read_manifest_errors fsNoMan bagW).1 rfl,
   (c5_read_manifest_errors fsBadMan bagW).2.1 "bad\n" "manifest-sha256.txt" "bad"
     rfl rfl,
   (c5_read_manifest_errors fsGoodMan bagW).2.2.1
     [{ Path := "data/a.txt", Checksum := "aaaa" }] rfl rfl,
   (c5_read_manifest_errors fsBadTag bagW).2.2.2.1
     [{ Path := "data/a.txt", Checksum := "aaaa" }] "tagmanifest-sha256.txt" "zz"
     rfl "zz\n" rfl rfl,
   (c5_read_manifest_errors fsEmptyMan bagW).2.2.2.2 bagW rfl rfl⟩

end Bagit

namespace Bagit

/-! ### C2 -/

/-- Fixture: a bag whose tag manifest file exists but is empty, while the
payload is intact. -/
def fsC2 : FS :=
  { files := [("data/a.txt", "x"), ("manifest-sha256.txt", "aaaa  data/a.txt\n"),
      ("tagmanifest-sha256.txt", "")], hasDataDir := true }

/-- C2 counterexample: the tag manifest is present at read time and comparing
the recomputed tag checksums against it yields a discrepancy, yet `Validate`
skips the tag layer entirely (it gates on a non-empty parsed tag manifest)
and returns the payload result `([], none)` instead of the tag
discrepancies. -/
theorem c2_counterexample :
    lookupFile fsC2 (tagManifestFilename bagW) = some "" ∧
    (readManifests fsC2 bagW).1.ManifestTagSums = [] ∧
    Compare "tag manifest" (readManifests fsC2 bagW).1.ManifestTagSums
      (sortByPath (tagSums fsC2 bagW.Hasher)) ≠ [] ∧
    (validate fsC2 bagW).1 = ([], none) := by
  refine ⟨rfl, rfl, ?_, ?_⟩ <;> decide

/-- C2 (amended): for every bag whose tag manifest was present at read time
and parsed to at least one entry, if comparing the recomputed tag-file
checksums against the tag manifest yields at least one discrepancy,
`Validate` returns exactly those tag-level discrepancies with no error and
never recomputes the payload checksums in that call (the returned bag's
`ActualChecksums` is untouched). -/
theorem c2_tag_short_circuit {σ : Type} {fs : FS} {b b1 b2 : Bag σ} {d : List String}
    (h1 : readManifests fs b = (b1, none))
    (h2 : b1.ManifestChecksums.length ≠ 0)
    (h3 : 0 < b1.ManifestTagSums.length)
    (h4 : generateTagSums fs b1 = (b2, none))
    (h5 : d = Compare "tag manifest" b1.ManifestTagSums b2.ActualTagSums)
    (h6 : 0 < d.length) :
    validate fs b = ((d, none), b2) ∧ b2.ActualChecksums = b.ActualChecksums := by
  constructor
  · unfold validate
    simp only [h1]
    rw [if_neg h2, if_pos h3]
    simp only [h4]
    have hmts : b2.ManifestTagSums = b1.ManifestTagSums :=
      (generateTagSums_ok h4).2.2.2.2.2.2
    rw [hmts, ← h5, if_pos h6]
  · have hgen := generateTagSums_ok h4
    have hread := readManifests_ok_inv h1
    rw [hgen.2.2.2.2.1, hread.2.2.1]

/-- Fixture: a bag whose tag manifest misstates the payload manifest's
digest. -/
def fsC2w : FS :=
  { files := [("data/a.txt", "x"), ("manifest-sha256.txt", "aaaa  data/a.txt\n"),
      ("tagmanifest-sha256.txt", "bbbb  manifest-sha256.txt\n")],
    hasDataDir := true }

/-- Fixture: `bagW` after reading the manifests of `fsC2w`. -/
def b1C2 : Bag Unit :=
  { bagW with
    ManifestChecksums := [{ Path := "data/a.txt", Checksum := "aaaa" }],
    ManifestTagSums := [{ Path := "manifest-sha256.txt", Checksum := "bbbb" }] }

/-- Fixture: `b1C2` after recomputing tag checksums over `fsC2w`. -/
def b2C2 : Bag Unit :=
  { b1C2 with
    ActualTagSums := [{ Path := "manifest-sha256.txt", Checksum := "aaaa" }] }

/-- C2 witness: a corrupted tag layer short-circuits validation at concrete
inputs. -/
theorem c2_tag_short_circuit_witness :
    validate fsC2w bagW =
      ((Compare "tag manifest" b1C2.ManifestTagSums b2C2.ActualTagSums, none), b2C2) ∧
    b2C2.ActualChecksums = bagW.ActualChecksums :=
  c2_tag_short_circuit rfl (by decide) (by decide) rfl rfl (by decide)

end Bagit

namespace Bagit

/-! ### C3 -/

theorem setFile_lookup_self (fs : FS) (k c : String) :
    lookupFile (setFile fs k c) k = some c := setAssoc_lookup_self fs.files k c

theorem setFile_lookup_other (fs : FS) (k c p : String) (h : p ≠ k) :
    lookupFile (setFile fs k c) p = lookupFile fs p :=
  setAssoc_lookup_other fs.files k c p h

theorem generateChecksums_ok_hasData {σ : Type} {fs : FS} {b b1 : Bag σ}
    (h : generateChecksums fs b = (b1, none)) : fs.hasDataDir = true := by
  by_cases hd : fs.hasDataDir = false
  · unfold generateChecksums at h
    rw [if_pos hd] at h
    injection h with _ he
    cases he
  · cases hb : fs.hasDataDir with
    | false => exact absurd hb hd
    | true => rfl

/-- Helper: with the payload manifest already on disk, the write sequence
stops at `writeManifest` with a collision error and the filesystem is
untouched. -/
theorem writeTagFiles_manifest_collision {σ : Type} {fs : FS} {b : Bag σ}
    (hd : fs.hasDataDir = true) {v : String}
    (hv : lookupFile fs (manifestFilename b) = some v) :
    (writeTagFiles (fs, b)).2 = some (BagError.manifestExists (manifestFilename b)) ∧
    (writeTagFiles (fs, b)).1.1 = fs := by
  obtain ⟨b1, hgen, hroot, hhash, hcache, hats, hmc, hmts⟩ := generateChecksums_total b hd
  have hmfn : manifestFilename b1 = manifestFilename b := by
    unfold manifestFilename
    rw [hhash]
  have hm2 : mustNotExist fs (manifestFilename b) = false := by
    unfold mustNotExist
    rw [hv]
    rfl
  have hwm : writeManifest fs b1 =
      (fs, some (BagError.manifestExists (manifestFilename b))) := by
    unfold writeManifest
    simp [hm2, hmfn]
  have hwf : writeTagFiles (fs, b) =
      ((fs, b1), some (BagError.manifestExists (manifestFilename b))) := by
    unfold writeTagFiles
    simp only [stGenerateChecksums, hgen, stWriteManifest, hwm]
  rw [hwf]
  exact ⟨rfl, rfl⟩

/-- C3 (amended): the collision guard protects `manifest-<algo>.txt` and
`tagmanifest-<algo>.txt` but not `bagit.txt`: a pre-existing payload
manifest aborts the write with a collision error leaving the filesystem
untouched; a pre-existing tag manifest aborts at the final step with a
collision error, leaving the tag manifest's content unchanged and touching
nothing besides the new `manifest-<algo>.txt` and `bagit.txt`; hence a
second `Write` against the same root fails with the manifest collision
error and changes nothing. -/
theorem c3_collision_guards {σ : Type} (fs : FS) (b : Bag σ) :
    (fs.hasDataDir = true → ∀ v, lookupFile fs (manifestFilename b) = some v →
      (writeTagFiles (fs, b)).2 = some (BagError.manifestExists (manifestFilename b)) ∧
      (writeTagFiles (fs, b)).1.1 = fs) ∧
    (fs.hasDataDir = true → lookupFile fs (manifestFilename b) = none →
      ∀ v, lookupFile fs (tagManifestFilename b) = some v →
      (writeTagFiles (fs, b)).2 =
        some (BagError.tagManifestExists (tagManifestFilename b)) ∧
      lookupFile (writeTagFiles (fs, b)).1.1 (tagManifestFilename b) = some v ∧
      (∀ p, p ≠ manifestFilename b → p ≠ "bagit.txt" →
        lookupFile (writeTagFiles (fs, b)).1.1 p = lookupFile fs p)) ∧
    (∀ fs2 b2, writeTagFiles (fs, b) = ((fs2, b2), none) →
      (writeTagFiles (fs2, b2)).2 =
        some (BagError.manifestExists (manifestFilename b2)) ∧
      (writeTagFiles (fs2, b2)).1.1 = fs2) := by
  refine ⟨fun hd v hv => writeTagFiles_manifest_collision hd hv, ?_, ?_⟩
  · intro hd hm v htv
    obtain ⟨b1, hgen, _, hhash1, _, _, _, _⟩ := generateChecksums_total b hd
    have hmfn : manifestFilename b1 = manifestFilename b := by
      unfold manifestFilename
      rw [hhash1]
    have htfn1 : tagManifestFilename b1 = tagManifestFilename b := by
      unfold tagManifestFilename
      rw [hhash1]
    have hm2 : mustNotExist fs (manifestFilename b) = true := by
      unfold mustNotExist
      rw [hm]
      rfl
    have hwm : writeManifest fs b1 =
        (setFile fs (manifestFilename b) (encodeSums b1.ActualChecksums), none) := by
      unfold writeManifest
      simp [hm2, hmfn]
    obtain ⟨bT, hgts, _, hhashT, _, _, _, _⟩ :=
      @generateTagSums_total σ (setFile (setFile fs (manifestFilename b)
          (encodeSums b1.ActualChecksums)) "bagit.txt" bagitContent) b1
    have htfnT : tagManifestFilename bT = tagManifestFilename b := by
      unfold tagManifestFilename
      rw [hhashT, hhash1]
    have hlookupB : lookupFile (setFile (setFile fs (manifestFilename b)
        (encodeSums b1.ActualChecksums)) "bagit.txt" bagitContent)
        (tagManifestFilename b) = some v := by
      rw [setFile_lookup_other _ _ _ _ (tagName_ne_bagit b)]
      rw [setFile_lookup_other _ _ _ _ (Ne.symm (mName_ne_tagName b))]
      exact htv
    have hmne : mustNotExist (setFile (setFile fs (manifestFilename b)
        (encodeSums b1.ActualChecksums)) "bagit.txt" bagitContent)
        (tagManifestFilename b) = false := by
      unfold mustNotExist
      rw [hlookupB]
      rfl
    have hwt : writeTagManifest (setFile (setFile fs (manifestFilename b)
        (encodeSums b1.ActualChecksums)) "bagit.txt" bagitContent) bT =
        (setFile (setFile fs (manifestFilename b)
          (encodeSums b1.ActualChecksums)) "bagit.txt" bagitContent,
         some (BagError.tagManifestExists (tagManifestFilename b))) := by
      unfold writeTagManifest
      simp [hmne, htfnT]
    have hwf : writeTagFiles (fs, b) =
        ((setFile (setFile fs (manifestFilename b)
          (encodeSums b1.ActualChecksums)) "bagit.txt" bagitContent, bT),
         some (BagError.tagManifestExists (tagManifestFilename b))) := by
      unfold writeTagFiles
      simp only [stGenerateChecksums, hgen, stWriteManifest, hwm, stWriteBagitFile,
        writeBagitFile, stGenerateTagSums, hgts, stWriteTagManifest, hwt]
    rw [hwf]
    refine ⟨rfl, hlookupB, ?_⟩
    intro p hp1 hp2
    show lookupFile (setFile (setFile fs (manifestFilename b)
      (encodeSums b1.ActualChecksums)) "bagit.txt" bagitContent) p = lookupFile fs p
    rw [setFile_lookup_other _ _ _ _ hp2, setFile_lookup_other _ _ _ _ hp1]
  · intro fs2 b2 hok
    obtain ⟨b1, fsA, fsB, hgen, hwm, hwb, hgts, hwtm⟩ := writeTagFiles_ok_inv hok
    have hd : fs.hasDataDir = true := generateChecksums_ok_hasData hgen
    obtain ⟨b1x, hgenx, _, hhash1, _, _, _, _⟩ := generateChecksums_total b hd
    rw [hgen] at hgenx
    injection hgenx with hb1 _
    subst hb1
    obtain ⟨bTx, hgtsx, _, hhashT, _, _, _, _⟩ := @generateTagSums_total σ fsB b1
    rw [hgts] at hgtsx
    injection hgtsx with hb2 _
    subst hb2
    obtain ⟨_, hfsA⟩ := writeManifest_ok_inv hwm
    have hfsB : fsB = setFile fsA "bagit.txt" bagitContent := by
      unfold writeBagitFile at hwb
      injection hwb with h1 _
      exact h1.symm
    obtain ⟨_, hfs2⟩ := writeTagManifest_ok_inv hwtm
    have hd2 : fs2.hasDataDir = true := by
      rw [hfs2, setFile_hasDataDir, hfsB, setFile_hasDataDir, hfsA, setFile_hasDataDir]
      exact hd
    have hmfn1 : manifestFilename b1 = manifestFilename b := by
      unfold manifestFilename
      rw [hhash1]
    have hmfn2 : manifestFilename b2 = manifestFilename b1 := by
      unfold manifestFilename
      rw [hhashT]
    have hlook : lookupFile fs2 (manifestFilename b2) =
        some (encodeSums b1.ActualChecksums) := by
      rw [hfs2, setFile_lookup_other _ _ _ _ (mName_ne_tagName b2)]
      rw [hfsB, setFile_lookup_other _ _ _ _ (mName_ne_bagit b2)]
      rw [hfsA, hmfn2, hmfn1]
      exact setFile_lookup_self fs (manifestFilename b) (encodeSums b1.ActualChecksums)
    exact writeTagFiles_manifest_collision hd2 hlook

/-- Fixture: a bag root with a payload file and a pre-existing `bagit.txt`
holding other content. -/
def fsC3 : FS :=
  { files := [("data/a.txt", "x"), ("bagit.txt", "OLD")], hasDataDir := true }

/-- C3 counterexample: a pre-existing `bagit.txt` does not make the write
fail; it is silently overwritten with the standard declaration
(`writeBagitFile` has no existence check and the safe-file close
truncates the destination). -/
theorem c3_counterexample :
    lookupFile fsC3 "bagit.txt" = some "OLD" ∧
    (writeTagFiles (fsC3, bagW)).2 = none ∧
    lookupFile (writeTagFiles (fsC3, bagW)).1.1 "bagit.txt" = some bagitContent ∧
    bagitContent ≠ "OLD" := by
  refine ⟨rfl, ?_, ?_, ?_⟩ <;> decide

/-- Fixture: a bag root whose tag manifest already exists. -/
def fsC3tag : FS :=
  { files := [("data/a.txt", "x"), ("tagmanifest-sha256.txt", "KEEP")],
    hasDataDir := true }

/-- Fixture: a bag root whose payload manifest already exists. -/
def fsC3man : FS :=
  { files := [("data/a.txt", "x"), ("manifest-sha256.txt", "KEEP")],
    hasDataDir := true }

/-- C3 witness: the three amended guarantees at concrete inputs. -/
theorem c3_collision_guards_witness :
    ((writeTagFiles (fsC3man, bagW)).2 =
      some (BagError.manifestExists (manifestFilename bagW)) ∧
      (writeTagFiles (fsC3man, bagW)).1.1 = fsC3man) ∧
    ((writeTagFiles (fsC3tag, bagW)).2 =
      some (BagError.tagManifestExists (tagManifestFilename bagW)) ∧
      lookupFile (writeTagFiles (fsC3tag, bagW)).1.1 (tagManifestFilename bagW) =
        some "KEEP" ∧
      (∀ p, p ≠ manifestFilename bagW → p ≠ "bagit.txt" →
        lookupFile (writeTagFiles (fsC3tag, bagW)).1.1 p = lookupFile fsC3tag p)) ∧
    ((writeTagFiles ((writeTagFiles (fsW, bagW)).1.1,
        (writeTagFiles (fsW, bagW)).1.2)).2 =
      some (BagError.manifestExists (manifestFilename (writeTagFiles (fsW, bagW)).1.2)) ∧
      (writeTagFiles ((writeTagFiles (fsW, bagW)).1.1,
        (writeTagFiles (fsW, bagW)).1.2)).1.1 = (writeTagFiles (fsW, bagW)).1.1) :=
  ⟨(c3_collision_guards fsC3man bagW).1 rfl "KEEP" rfl,
   (c3_collision_guards fsC3tag bagW).2.1 rfl rfl "KEEP" rfl,
   (c3_collision_guards fsW bagW).2.2 (writeTagFiles (fsW, bagW)).1.1
     (writeTagFiles (fsW, bagW)).1.2 rfl⟩

end Bagit

namespace Bagit

/-! ### C9 -/

/-- C9 (confirmed): after every successful `GenerateChecksums`,
`GenerateTagSums`, or `ReadManifests`, the populated checksum list is
sorted ascending by path; and (for a filesystem with duplicate-free
paths and the default no-op cache) a second generation pass over an
unchanged file set returns the identical list. -/
theorem c9_sorted_deterministic :
    (∀ (σ : Type) (fs : FS) (b b2 : Bag σ), generateChecksums fs b = (b2, none) →
      pathSortedB b2.ActualChecksums = true) ∧
    (∀ (σ : Type) (fs : FS) (b b2 : Bag σ), generateTagSums fs b = (b2, none) →
      pathSortedB b2.ActualTagSums = true) ∧
    (∀ (σ : Type) (fs : FS) (b b2 : Bag σ), readManifests fs b = (b2, none) →
      pathSortedB b2.ManifestChecksums = true ∧
      pathSortedB b2.ManifestTagSums = true) ∧
    (∀ (fs : FS) (b b1 : Bag Unit), b.Cache = noopCacher →
      (fs.files.map Prod.fst).Nodup →
      generateChecksums fs b = (b1, none) →
      ∃ b2, generateChecksums fs b1 = (b2, none) ∧
        b2.ActualChecksums = b1.ActualChecksums) := by
  refine ⟨?_, ?_, ?_, ?_⟩
  · intro σ fs b b2 h
    unfold generateChecksums at h
    by_cases hdd : fs.hasDataDir = false
    · rw [if_pos hdd] at h
      injection h with _ he
      cases he
    · rw [if_neg hdd] at h
      cases hw : walkData fs { b with ActualChecksums := ([] : List FileChecksum) }
          (dataFileList fs) with
      | mk bw err =>
        simp only [hw] at h
        injection h with h1 h2
        rw [← h1]
        exact sortByPath_sorted _
  · intro σ fs b b2 h
    unfold generateTagSums at h
    cases hw : walkTags fs { b with ActualTagSums := ([] : List FileChecksum) }
        (tagFileList fs) with
    | mk bw err =>
      cases err with
      | none =>
        simp only [hw] at h
        injection h with h1 h2
        rw [← h1]
        exact sortByPath_sorted _
      | some e =>
        simp only [hw] at h
        injection h with h1 h2
        cases h2
  · intro σ fs b b2 h
    obtain ⟨⟨sums, hre, hmc⟩, hdisj, _⟩ := readManifests_ok_inv h
    constructor
    · rw [hmc]
      exact readSums_ok_sorted hre
    · rcases hdisj with hmt | hre2
      · rw [hmt]
        rfl
      · exact readSums_ok_sorted hre2
  · intro fs b b1 hc hnodup h
    have hd : fs.hasDataDir = true := generateChecksums_ok_hasData h
    have hl : ∀ e ∈ dataFileList fs, lookupFile fs e.1 = some e.2 := by
      intro e he
      have hmem : e ∈ fs.files := List.mem_of_mem_filter he
      obtain ⟨e1, e2⟩ := e
      exact lookupAssoc_of_nodup hnodup hmem
    have hng := generateChecksums_noop hc hd hl
    rw [h] at hng
    injection hng with h1 _
    have hc1 : b1.Cache = noopCacher := by
      rw [h1]
      exact hc
    have hh : b1.Hasher = b.Hasher := by
      rw [h1]
    have hng2 := generateChecksums_noop hc1 hd hl
    refine ⟨_, hng2, ?_⟩
    show sortByPath (payloadSums fs b1.Hasher) = b1.ActualChecksums
    rw [hh, h1]

/-- Fixture: `bagW` after a payload generation pass over `fsW`. -/
def bagWgen : Bag Unit :=
  { bagW with
    ActualChecksums := [{ Path := "data/a.txt", Checksum := "aaaa" },
      { Path := "data/b.txt", Checksum := "aaaa" }] }

/-- Fixture: `bagW` after a tag generation pass over `fsW`. -/
def bagWtags : Bag Unit :=
  { bagW with ActualTagSums := [{ Path := "notes.txt", Checksum := "aaaa" }] }

/-- C9 witness at concrete inputs. -/
theorem c9_sorted_deterministic_witness :
    pathSortedB bagWgen.ActualChecksums = true ∧
    pathSortedB bagWtags.ActualTagSums = true ∧
    (pathSortedB bagWgood.ManifestChecksums = true ∧
      pathSortedB bagWgood.ManifestTagSums = true) ∧
    (∃ b2, generateChecksums fsW bagWgen = (b2, none) ∧
      b2.ActualChecksums = bagWgen.ActualChecksums) :=
  ⟨c9_sorted_deterministic.1 Unit fsW bagW bagWgen rfl,
   c9_sorted_deterministic.2.1 Unit fsW bagW bagWtags rfl,
   c9_sorted_deterministic.2.2.1 Unit fsGoodMan bagW bagWgood rfl,
   c9_sorted_deterministic.2.2.2 fsW bagW bagWgen rfl (by decide) rfl⟩

end Bagit

namespace Bagit

/-! ### C8 -/

/-- Specification-side combinator: run a list of state steps in order,
each step executing only when every earlier step succeeded; the first
failure is returned with the state as the failing step left it (no
rollback). -/
def runGated {σ : Type} (steps : List (BagState σ → BagState σ × Option BagError))
    (st : BagState σ) : BagState σ × Option BagError :=
  steps.foldl (fun acc step =>
    match acc with
    | (s, none) => step s
    | (s, some e) => (s, some e)) (st, none)

theorem runGated_foldl_err {σ : Type}
    (steps : List (BagState σ → BagState σ × Option BagError))
    (s : BagState σ) (e : BagError) :
    steps.foldl (fun acc step =>
      match acc with
      | (s, none) => step s
      | (s, some e) => (s, some e)) (s, some e) = (s, some e) := by
  induction steps with
  | nil => rfl
  | cons hd rest ih =>
    simp only [List.foldl_cons]
    exact ih

/-- C8 (confirmed): `WriteTagFiles` is exactly the gated five-step
sequence — generate payload checksums, write the manifest, write
bagit.txt, generate tag checksums, write the tag manifest — each step
running only if all prior steps succeeded and the first failure being
returned with earlier effects left in place; moreover on success the tag
manifest was computed after the manifest and bagit.txt were written, so
it carries entries for both of them. -/
theorem c8_write_sequence {σ : Type} :
    (∀ st : BagState σ, writeTagFiles st =
      runGated [stGenerateChecksums, stWriteManifest, stWriteBagitFile,
        stGenerateTagSums, stWriteTagManifest] st) ∧
    (∀ (fs : FS) (b : Bag σ) (fs2 : FS) (b2 : Bag σ),
      writeTagFiles (fs, b) = ((fs2, b2), none) →
      hasSlash b.Hasher.Name.data = false →
      lookupFile fs2 (tagManifestFilename b) = some (encodeSums b2.ActualTagSums) ∧
      manifestFilename b ∈ b2.ActualTagSums.map FileChecksum.Path ∧
      "bagit.txt" ∈ b2.ActualTagSums.map FileChecksum.Path) := by
  constructor
  · intro st
    unfold writeTagFiles runGated
    simp only [List.foldl_cons, List.foldl_nil]
    cases h1 : stGenerateChecksums st with
    | mk st1 e1 =>
      cases e1 with
      | some e => simp only [h1]
      | none =>
        simp only [h1]
        cases h2 : stWriteManifest st1 with
        | mk st2 e2 =>
          cases e2 with
          | some e => simp only [h2]
          | none =>
            simp only [h2]
            cases h3 : stWriteBagitFile st2 with
            | mk st3 e3 =>
              cases e3 with
              | some e => simp only [h3]
              | none =>
                simp only [h3]
                cases h4 : stGenerateTagSums st3 with
                | mk st4 e4 =>
                  cases e4 with
                  | some e => simp only [h4]
                  | none => simp only [h4]
  · intro fs b fs2 b2 hok hns
    obtain ⟨b1, fsA, fsB, hgen, hwm, hwb, hgts, hwtm⟩ := writeTagFiles_ok_inv hok
    have hd : fs.hasDataDir = true := generateChecksums_ok_hasData hgen
    obtain ⟨b1x, hgenx, _, hhash1, _, _, _, _⟩ := generateChecksums_total b hd
    rw [hgen] at hgenx
    injection hgenx with hb1 _
    subst hb1
    obtain ⟨_, hfsA⟩ := writeManifest_ok_inv hwm
    have hfsB : fsB = setFile fsA "bagit.txt" bagitContent := by
      unfold writeBagitFile at hwb
      injection hwb with h1 _
      exact h1.symm
    obtain ⟨hperm, _, hhashT, _, _, _, _⟩ := generateTagSums_ok hgts
    obtain ⟨_, hfs2⟩ := writeTagManifest_ok_inv hwtm
    have hmfn2 : manifestFilename b1 = manifestFilename b := by
      unfold manifestFilename
      rw [hhash1]
    have htfn2 : tagManifestFilename b2 = tagManifestFilename b := by
      unfold tagManifestFilename
      rw [hhashT, hhash1]
    refine ⟨?_, ?_, ?_⟩
    · rw [hfs2, htfn2]
      exact setFile_lookup_self fsB (tagManifestFilename b) (encodeSums b2.ActualTagSums)
    · refine (hperm.mem_iff).mpr ?_
      refine List.mem_map.mpr
        ⟨(manifestFilename b, encodeSums b1.ActualChecksums), ?_, rfl⟩
      refine List.mem_filter.mpr ⟨?_, ?_⟩
      · rw [hfsB]
        show (manifestFilename b, encodeSums b1.ActualChecksums) ∈
          setAssoc fsA.files "bagit.txt" bagitContent
        refine setAssoc_mem_preserve ?_ _ (mName_ne_bagit b)
        rw [hfsA, hmfn2]
        exact setAssoc_mem_self fs.files (manifestFilename b)
          (encodeSums b1.ActualChecksums)
      · simp [mName_noSlash b hns, mName_not_tagmatch b]
    · refine (hperm.mem_iff).mpr ?_
      refine List.mem_map.mpr ⟨("bagit.txt", bagitContent), ?_, rfl⟩
      refine List.mem_filter.mpr ⟨?_, ?_⟩
      · rw [hfsB]
        exact setAssoc_mem_self fsA.files "bagit.txt" bagitContent
      · simp [bagit_not_tagmatch]
        decide

/-- C8 witness: the combinator equality and the tag-manifest inclusion at
concrete inputs. -/
theorem c8_write_sequence_witness :
    (writeTagFiles (fsW, bagW) =
      runGated [stGenerateChecksums, stWriteManifest, stWriteBagitFile,
        stGenerateTagSums, stWriteTagManifest] (fsW, bagW)) ∧
    (lookupFile (writeTagFiles (fsW, bagW)).1.1 (tagManifestFilename bagW) =
      some (encodeSums (writeTagFiles (fsW, bagW)).1.2.ActualTagSums) ∧
    manifestFilename bagW ∈
      (writeTagFiles (fsW, bagW)).1.2.ActualTagSums.map FileChecksum.Path ∧
    "bagit.txt" ∈
      (writeTagFiles (fsW, bagW)).1.2.ActualTagSums.map FileChecksum.Path) :=
  ⟨(c8_write_sequence).1 (fsW, bagW),
   (c8_write_sequence).2 fsW bagW (writeTagFiles (fsW, bagW)).1.1
     (writeTagFiles (fsW, bagW)).1.2 rfl (by decide)⟩

end Bagit

namespace Bagit

/-! ### C1 support lemmas -/

theorem cleanStrB_append {a c : String} (ha : cleanStrB a = true)
    (hc : cleanStrB c = true) : cleanStrB (a ++ c) = true := by
  unfold cleanStrB at ha hc ⊢
  rw [strDataAppend]
  obtain ⟨ha1, ha2⟩ := (Bool.and_eq_true ..).mp ha
  obtain ⟨hc1, hc2⟩ := (Bool.and_eq_true ..).mp hc
  refine (Bool.and_eq_true ..).mpr ⟨?_, ?_⟩
  · cases hd : a.data with
    | nil =>
      rw [hd] at ha1
      cases ha1
    | cons x xs => simp [hd]
  · rw [List.all_append, ha2, hc2]
    rfl

theorem mName_clean {σ : Type} (b : Bag σ) (h : cleanStrB b.Hasher.Name = true) :
    cleanStrB (manifestFilename b) = true := by
  refine cleanStrB_append (cleanStrB_append (by decide) h) (by decide)

theorem lookup_of_nodup_fs {fs : FS} (hn : (fs.files.map Prod.fst).Nodup) :
    ∀ e ∈ fs.files, lookupFile fs e.1 = some e.2 := by
  intro e he
  obtain ⟨e1, e2⟩ := e
  exact lookupAssoc_of_nodup hn he

theorem payloadSums_paths (fs : FS) (h : Hasher) :
    (payloadSums fs h).map FileChecksum.Path = (dataFileList fs).map Prod.fst := by
  unfold payloadSums
  rw [List.map_map]
  rfl

theorem tagSums_paths (fs : FS) (h : Hasher) :
    (tagSums fs h).map FileChecksum.Path = (tagFileList fs).map Prod.fst := by
  unfold tagSums
  rw [List.map_map]
  rfl

theorem cleanSumsB_of_mem {l : List FileChecksum}
    (h : ∀ ck ∈ l, cleanStrB ck.Path = true ∧ cleanStrB ck.Checksum = true) :
    cleanSumsB l = true := by
  apply List.all_eq_true.mpr
  intro ck hck
  exact (Bool.and_eq_true ..).mpr (h ck hck)

theorem cleanSumsB_mem {l : List FileChecksum} (h : cleanSumsB l = true) :
    ∀ ck ∈ l, cleanStrB ck.Path = true ∧ cleanStrB ck.Checksum = true := by
  intro ck hck
  exact (Bool.and_eq_true ..).mp ((List.all_eq_true.mp h) ck hck)

theorem cleanSumsB_perm {l l2 : List FileChecksum} (hp : l.Perm l2)
    (h : cleanSumsB l = true) : cleanSumsB l2 = true :=
  cleanSumsB_of_mem (fun ck hck => cleanSumsB_mem h ck (hp.mem_iff.mpr hck))

theorem cleanSums_checksum_ne {l : List FileChecksum} (h : cleanSumsB l = true) :
    ∀ ck ∈ l, ck.Checksum ≠ "" :=
  fun ck hck => cleanStrB_ne_empty (cleanSumsB_mem h ck hck).2

theorem sortByPath_ne_nil {l : List FileChecksum} (h : l ≠ []) :
    sortByPath l ≠ [] := by
  intro hc
  have := (sortByPath_perm l).length_eq
  rw [hc] at this
  cases hl : l with
  | nil => exact h hl
  | cons x xs =>
    rw [hl] at this
    cases this

theorem startsWithB_data_mName {σ : Type} (b : Bag σ) :
    startsWithB "data/" (manifestFilename b) = false := by
  show (dropPreChars ("data/" : String).data (manifestFilename b).data).isSome = false
  rw [show ("data/" : String).data = 'd' :: ("ata/" : String).data from rfl]
  rw [show (manifestFilename b).data =
    'm' :: (("anifest-" ++ b.Hasher.Name ++ ".txt") : String).data from rfl]
  simp [dropPreChars]

theorem startsWithB_data_tagName {σ : Type} (b : Bag σ) :
    startsWithB "data/" (tagManifestFilename b) = false := by
  show (dropPreChars ("data/" : String).data (tagManifestFilename b).data).isSome = false
  rw [show ("data/" : String).data = 'd' :: ("ata/" : String).data from rfl]
  rw [show (tagManifestFilename b).data =
    't' :: (("agmanifest-" ++ b.Hasher.Name ++ ".txt") : String).data from rfl]
  simp [dropPreChars]

theorem startsWithB_data_bagit : startsWithB "data/" "bagit.txt" = false := by decide

theorem tagName_not_startsWith_tagmanifest_mName {σ : Type} (b : Bag σ) :
    startsWithB "tagmanifest-" (manifestFilename b) = false := by
  show (dropPreChars ("tagmanifest-" : String).data (manifestFilename b).data).isSome = false
  rw [show ("tagmanifest-" : String).data = 't' :: ("agmanifest-" : String).data from rfl]
  rw [show (manifestFilename b).data =
    'm' :: (("anifest-" ++ b.Hasher.Name ++ ".txt") : String).data from rfl]
  simp [dropPreChars]

end Bagit

namespace Bagit

theorem map_ne_nil {α β : Type} {l : List α} (f : α → β) (h : l ≠ []) :
    l.map f ≠ [] := by
  cases l with
  | nil => exact absurd rfl h
  | cons x xs => simp

theorem keys_append_nodup {l : List (String × String)} {k : String}
    (hn : (l.map Prod.fst).Nodup) (h : lookupAssoc l k = none) (v : String) :
    ((l ++ [(k, v)]).map Prod.fst).Nodup := by
  rw [List.map_append]
  rw [List.nodup_append]
  refine ⟨hn, by simp, ?_⟩
  intro a ha hb
  simp at hb
  subst hb
  exact (lookupAssoc_eq_none_iff.mp h) ha

/-- Core of the round-trip argument: a filesystem whose two manifests parse
back to exactly what a fresh no-op-cache generation pass recomputes
validates cleanly. -/
theorem validate_roundtrip_core {cs ts : List FileChecksum} (fs2 : FS) (b2 : Bag Unit)
    (h1 : readSums fs2 (manifestFilename b2) = Except.ok cs)
    (h2 : readSums fs2 (tagManifestFilename b2) = Except.ok ts)
    (hcs : cs ≠ []) (hts : ts ≠ [])
    (hcache2 : b2.Cache = noopCacher)
    (hdd2 : fs2.hasDataDir = true)
    (hnodup2 : (fs2.files.map Prod.fst).Nodup)
    (htseq : sortByPath (tagSums fs2 b2.Hasher) = ts)
    (hcseq : sortByPath (payloadSums fs2 b2.Hasher) = cs)
    (hcsne : ∀ ck ∈ cs, ck.Checksum ≠ "") (htsne : ∀ ck ∈ ts, ck.Checksum ≠ "") :
    (validate fs2 b2).1 = ([], none) := by
  have hrm : readManifests fs2 b2 =
      ({ b2 with
         ManifestChecksums := cs,
         ManifestTagSums := ts }, none) :=
    readManifests_ok_both h1 h2
  have hlen1 : ¬(cs.length = 0) := by
    rw [List.length_eq_zero]
    exact hcs
  have hlen2 : 0 < ts.length := by
    cases hl : ts with
    | nil => exact absurd hl hts
    | cons x xs => simp
  have hltags : ∀ e ∈ tagFileList fs2, lookupFile fs2 e.1 = some e.2 :=
    fun e he => lookup_of_nodup_fs hnodup2 e (List.mem_of_mem_filter he)
  have hldata : ∀ e ∈ dataFileList fs2, lookupFile fs2 e.1 = some e.2 :=
    fun e he => lookup_of_nodup_fs hnodup2 e (List.mem_of_mem_filter he)
  have hgts2 : generateTagSums fs2
      { b2 with
        ManifestChecksums := cs,
        ManifestTagSums := ts } =
      ({ b2 with
         ManifestChecksums := cs,
         ManifestTagSums := ts,
         ActualTagSums := sortByPath (tagSums fs2 b2.Hasher) }, none) :=
    generateTagSums_noop hcache2 hltags
  rw [htseq] at hgts2
  have hgc2 : generateChecksums fs2
      { b2 with
        ManifestChecksums := cs,
        ManifestTagSums := ts,
        ActualTagSums := ts } =
      ({ b2 with
         ManifestChecksums := cs,
         ManifestTagSums := ts,
         ActualTagSums := ts,
         ActualChecksums := sortByPath (payloadSums fs2 b2.Hasher) }, none) :=
    generateChecksums_noop hcache2 hdd2 hldata
  rw [hcseq] at hgc2
  unfold validate
  simp only [hrm]
  rw [if_neg hlen1, if_pos hlen2]
  simp only [hgts2]
  rw [compare_self htsne]
  rw [if_neg (by simp)]
  unfold validatePayload
  simp only [hgc2]
  rw [compare_self hcsne]

end Bagit

namespace Bagit

/-! ### C1: the Write chain on a fresh, collision-free root -/

theorem writeManifest_absent {σ : Type} {fs : FS} {b : Bag σ}
    (h : lookupFile fs (manifestFilename b) = none) :
    writeManifest fs b =
      (setFile fs (manifestFilename b) (encodeSums b.ActualChecksums), none) := by
  unfold writeManifest
  have h2 : mustNotExist fs (manifestFilename b) = true := by
    unfold mustNotExist
    rw [h]
    rfl
  simp [h2]

theorem writeTagManifest_absent {σ : Type} {fs : FS} {b : Bag σ}
    (h : lookupFile fs (tagManifestFilename b) = none) :
    writeTagManifest fs b =
      (setFile fs (tagManifestFilename b) (encodeSums b.ActualTagSums), none) := by
  unfold writeTagManifest
  have h2 : mustNotExist fs (tagManifestFilename b) = true := by
    unfold mustNotExist
    rw [h]
    rfl
  simp [h2]

/-- The payload checksum list a clean Write produces. -/
def chainCS (fs : FS) (b : Bag Unit) : List FileChecksum :=
  sortByPath (payloadSums fs b.Hasher)

/-- The filesystem after step 2 (manifest written). -/
def chainFsA (fs : FS) (b : Bag Unit) : FS :=
  setFile fs (manifestFilename b) (encodeSums (chainCS fs b))

/-- The filesystem after step 3 (bagit.txt written). -/
def chainFsB (fs : FS) (b : Bag Unit) : FS :=
  setFile (chainFsA fs b) "bagit.txt" bagitContent

/-- The tag checksum list a clean Write produces: computed over the
filesystem that already holds the manifest and bagit.txt. -/
def chainTS (fs : FS) (b : Bag Unit) : List FileChecksum :=
  sortByPath (tagSums (chainFsB fs b) b.Hasher)

/-- The filesystem after step 5 (tag manifest written). -/
def chainFsC (fs : FS) (b : Bag Unit) : FS :=
  setFile (chainFsB fs b) (tagManifestFilename b) (encodeSums (chainTS fs b))

/-- The bag state after a clean Write. -/
def chainBag (fs : FS) (b : Bag Unit) : Bag Unit :=
  { b with ActualChecksums := chainCS fs b, ActualTagSums := chainTS fs b }

theorem chainFsA_files {fs : FS} {b : Bag Unit}
    (hm : lookupFile fs (manifestFilename b) = none) :
    (chainFsA fs b).files =
      fs.files ++ [(manifestFilename b, encodeSums (chainCS fs b))] :=
  setAssoc_of_absent hm _

theorem chainFsA_nodup {fs : FS} {b : Bag Unit}
    (hnodup : (fs.files.map Prod.fst).Nodup)
    (hm : lookupFile fs (manifestFilename b) = none) :
    ((chainFsA fs b).files.map Prod.fst).Nodup := by
  rw [chainFsA_files hm]
  exact keys_append_nodup hnodup hm _

theorem chainFsA_lookup_bagit {fs : FS} {b : Bag Unit}
    (hbg : lookupFile fs "bagit.txt" = none) :
    lookupFile (chainFsA fs b) "bagit.txt" = none := by
  show lookupFile (setFile fs (manifestFilename b) (encodeSums (chainCS fs b)))
    "bagit.txt" = none
  rw [setFile_lookup_other fs (manifestFilename b) (encodeSums (chainCS fs b))
    "bagit.txt" (Ne.symm (mName_ne_bagit b))]
  exact hbg

theorem chainFsB_files {fs : FS} {b : Bag Unit}
    (hm : lookupFile fs (manifestFilename b) = none)
    (hbg : lookupFile fs "bagit.txt" = none) :
    (chainFsB fs b).files =
      fs.files ++ [(manifestFilename b, encodeSums (chainCS fs b))] ++
        [("bagit.txt", bagitContent)] := by
  have h : (chainFsB fs b).files =
      (chainFsA fs b).files ++ [("bagit.txt", bagitContent)] :=
    setAssoc_of_absent (chainFsA_lookup_bagit hbg) _
  rw [h, chainFsA_files hm]

theorem chainFsB_nodup {fs : FS} {b : Bag Unit}
    (hnodup : (fs.files.map Prod.fst).Nodup)
    (hm : lookupFile fs (manifestFilename b) = none)
    (hbg : lookupFile fs "bagit.txt" = none) :
    ((chainFsB fs b).files.map Prod.fst).Nodup := by
  have h : (chainFsB fs b).files =
      (chainFsA fs b).files ++ [("bagit.txt", bagitContent)] :=
    setAssoc_of_absent (chainFsA_lookup_bagit hbg) _
  rw [h]
  exact keys_append_nodup (chainFsA_nodup hnodup hm) (chainFsA_lookup_bagit hbg) _

theorem chainFsB_lookup_tagName {fs : FS} {b : Bag Unit}
    (htm : lookupFile fs (tagManifestFilename b) = none) :
    lookupFile (chainFsB fs b) (tagManifestFilename b) = none := by
  show lookupFile (setFile (chainFsA fs b) "bagit.txt" bagitContent)
    (tagManifestFilename b) = none
  rw [setFile_lookup_other (chainFsA fs b) "bagit.txt" bagitContent
    (tagManifestFilename b) (tagName_ne_bagit b)]
  show lookupFile (setFile fs (manifestFilename b) (encodeSums (chainCS fs b)))
    (tagManifestFilename b) = none
  rw [setFile_lookup_other fs (manifestFilename b) (encodeSums (chainCS fs b))
    (tagManifestFilename b) (Ne.symm (mName_ne_tagName b))]
  exact htm

/-- A Write against a duplicate-free root with a `data/` directory, a
no-op cache, and none of the three output files pre-existing runs all
five steps and produces exactly the chain filesystem and bag. -/
theorem writeTagFiles_clean_chain {fs : FS} {b : Bag Unit}
    (hcache : b.Cache = noopCacher) (hdd : fs.hasDataDir = true)
    (hnodup : (fs.files.map Prod.fst).Nodup)
    (hm : lookupFile fs (manifestFilename b) = none)
    (hbg : lookupFile fs "bagit.txt" = none)
    (htm : lookupFile fs (tagManifestFilename b) = none) :
    writeTagFiles (fs, b) = ((chainFsC fs b, chainBag fs b), none) := by
  have hl : ∀ e ∈ dataFileList fs, lookupFile fs e.1 = some e.2 :=
    fun e he => lookup_of_nodup_fs hnodup e (List.mem_of_mem_filter he)
  have hgen : generateChecksums fs b =
      ({ b with ActualChecksums := chainCS fs b }, none) :=
    generateChecksums_noop hcache hdd hl
  have hwm : writeManifest fs { b with ActualChecksums := chainCS fs b } =
      (chainFsA fs b, none) :=
    writeManifest_absent hm
  have hwb : writeBagitFile (chainFsA fs b)
      { b with ActualChecksums := chainCS fs b } = (chainFsB fs b, none) := rfl
  have hlB : ∀ e ∈ tagFileList (chainFsB fs b),
      lookupFile (chainFsB fs b) e.1 = some e.2 :=
    fun e he => lookup_of_nodup_fs (chainFsB_nodup hnodup hm hbg) e
      (List.mem_of_mem_filter he)
  have hgts : generateTagSums (chainFsB fs b)
      { b with ActualChecksums := chainCS fs b } =
      ({ b with
         ActualChecksums := chainCS fs b,
         ActualTagSums := chainTS fs b }, none) :=
    generateTagSums_noop hcache hlB
  have hwt : writeTagManifest (chainFsB fs b)
      { b with
        ActualChecksums := chainCS fs b,
        ActualTagSums := chainTS fs b } =
      (chainFsC fs b, none) :=
    writeTagManifest_absent (chainFsB_lookup_tagName htm)
  unfold writeTagFiles
  simp only [stGenerateChecksums, hgen, stWriteManifest, hwm, stWriteBagitFile, hwb,
    stGenerateTagSums, hgts, stWriteTagManifest, hwt]
  rfl

end Bagit

namespace Bagit

/-! ### C1: validating the freshly written bag -/

theorem chainFsC_files {fs : FS} {b : Bag Unit}
    (htm : lookupFile fs (tagManifestFilename b) = none) :
    (chainFsC fs b).files =
      (chainFsB fs b).files ++
        [(tagManifestFilename b, encodeSums (chainTS fs b))] :=
  setAssoc_of_absent (chainFsB_lookup_tagName htm) _

theorem chainFsC_nodup {fs : FS} {b : Bag Unit}
    (hnodup : (fs.files.map Prod.fst).Nodup)
    (hm : lookupFile fs (manifestFilename b) = none)
    (hbg : lookupFile fs "bagit.txt" = none)
    (htm : lookupFile fs (tagManifestFilename b) = none) :
    ((chainFsC fs b).files.map Prod.fst).Nodup := by
  rw [chainFsC_files htm]
  exact keys_append_nodup (chainFsB_nodup hnodup hm hbg)
    (chainFsB_lookup_tagName htm) _

theorem chainFsC_lookup_mName (fs : FS) (b : Bag Unit) :
    lookupFile (chainFsC fs b) (manifestFilename b) =
      some (encodeSums (chainCS fs b)) := by
  show lookupFile (setFile (chainFsB fs b) (tagManifestFilename b)
    (encodeSums (chainTS fs b))) (manifestFilename b) = _
  rw [setFile_lookup_other (chainFsB fs b) (tagManifestFilename b)
    (encodeSums (chainTS fs b)) (manifestFilename b) (mName_ne_tagName b)]
  show lookupFile (setFile (chainFsA fs b) "bagit.txt" bagitContent)
    (manifestFilename b) = _
  rw [setFile_lookup_other (chainFsA fs b) "bagit.txt" bagitContent
    (manifestFilename b) (mName_ne_bagit b)]
  exact setFile_lookup_self fs (manifestFilename b) (encodeSums (chainCS fs b))

theorem dataFileList_chainFsC {fs : FS} {b : Bag Unit}
    (hm : lookupFile fs (manifestFilename b) = none)
    (hbg : lookupFile fs "bagit.txt" = none)
    (htm : lookupFile fs (tagManifestFilename b) = none) :
    dataFileList (chainFsC fs b) = dataFileList fs := by
  unfold dataFileList
  rw [chainFsC_files htm, chainFsB_files hm hbg]
  rw [List.filter_append, List.filter_append, List.filter_append]
  simp [startsWithB_data_mName, startsWithB_data_tagName, startsWithB_data_bagit]

theorem tagFileList_chainFsC {fs : FS} {b : Bag Unit}
    (hns : hasSlash b.Hasher.Name.data = false)
    (htm : lookupFile fs (tagManifestFilename b) = none) :
    tagFileList (chainFsC fs b) = tagFileList (chainFsB fs b) := by
  unfold tagFileList
  rw [chainFsC_files htm]
  rw [List.filter_append]
  simp [tagName_matches b hns]

theorem chainCS_clean {fs : FS} {b : Bag Unit}
    (hclean : ∀ e ∈ fs.files, cleanStrB e.1 = true)
    (hhash : ∀ s, cleanStrB (b.Hasher.Hash s) = true) :
    cleanSumsB (chainCS fs b) = true := by
  apply cleanSumsB_perm (sortByPath_perm (payloadSums fs b.Hasher)).symm
  apply cleanSumsB_of_mem
  intro ck hck
  unfold payloadSums at hck
  obtain ⟨e, he, rfl⟩ := List.mem_map.mp hck
  exact ⟨hclean e (List.mem_of_mem_filter he), hhash e.2⟩

theorem chainCS_strict {fs : FS} {b : Bag Unit}
    (hnodup : (fs.files.map Prod.fst).Nodup) :
    pathStrictSortedB (chainCS fs b) = true := by
  apply sortByPath_strict
  rw [payloadSums_paths]
  exact hnodup.sublist ((List.filter_sublist _).map _)

theorem chainTS_clean {fs : FS} {b : Bag Unit}
    (hclean : ∀ e ∈ fs.files, cleanStrB e.1 = true)
    (hhash : ∀ s, cleanStrB (b.Hasher.Hash s) = true)
    (hname : cleanStrB b.Hasher.Name = true)
    (hm : lookupFile fs (manifestFilename b) = none)
    (hbg : lookupFile fs "bagit.txt" = none) :
    cleanSumsB (chainTS fs b) = true := by
  apply cleanSumsB_perm (sortByPath_perm (tagSums (chainFsB fs b) b.Hasher)).symm
  apply cleanSumsB_of_mem
  intro ck hck
  unfold tagSums at hck
  obtain ⟨e, he, rfl⟩ := List.mem_map.mp hck
  have hmem : e ∈ (chainFsB fs b).files := List.mem_of_mem_filter he
  rw [chainFsB_files hm hbg] at hmem
  refine ⟨?_, hhash e.2⟩
  rcases List.mem_append.mp hmem with hmem1 | hmem2
  · rcases List.mem_append.mp hmem1 with hmem3 | hmem4
    · exact hclean e hmem3
    · have he2 : e = (manifestFilename b, encodeSums (chainCS fs b)) := by
        simpa using hmem4
      rw [he2]
      exact mName_clean b hname
  · have he2 : e = ("bagit.txt", bagitContent) := by
      simpa using hmem2
    rw [he2]
    show cleanStrB "bagit.txt" = true
    decide

theorem chainTS_strict {fs : FS} {b : Bag Unit}
    (hnodup : (fs.files.map Prod.fst).Nodup)
    (hm : lookupFile fs (manifestFilename b) = none)
    (hbg : lookupFile fs "bagit.txt" = none) :
    pathStrictSortedB (chainTS fs b) = true := by
  apply sortByPath_strict
  rw [tagSums_paths]
  exact (chainFsB_nodup hnodup hm hbg).sublist ((List.filter_sublist _).map _)

theorem chainCS_ne_nil {fs : FS} {b : Bag Unit} (hne : dataFileList fs ≠ []) :
    chainCS fs b ≠ [] :=
  sortByPath_ne_nil (show (dataFileList fs).map _ ≠ [] from map_ne_nil _ hne)

theorem chainTS_ne_nil {fs : FS} {b : Bag Unit}
    (hns : hasSlash b.Hasher.Name.data = false)
    (hm : lookupFile fs (manifestFilename b) = none)
    (hbg : lookupFile fs "bagit.txt" = none) :
    chainTS fs b ≠ [] := by
  apply sortByPath_ne_nil
  have hmem : (manifestFilename b, encodeSums (chainCS fs b)) ∈
      (chainFsB fs b).files := by
    rw [chainFsB_files hm hbg]
    simp
  have hmemTF : (manifestFilename b, encodeSums (chainCS fs b)) ∈
      tagFileList (chainFsB fs b) := by
    apply List.mem_filter.mpr
    refine ⟨hmem, ?_⟩
    simp [mName_noSlash b hns, mName_not_tagmatch b]
  unfold tagSums
  exact map_ne_nil _ (List.ne_nil_of_mem hmemTF)

theorem readSums_chainFsC_mName {fs : FS} {b : Bag Unit}
    (hnodup : (fs.files.map Prod.fst).Nodup)
    (hclean : ∀ e ∈ fs.files, cleanStrB e.1 = true)
    (hhash : ∀ s, cleanStrB (b.Hasher.Hash s) = true) :
    readSums (chainFsC fs b) (manifestFilename b) = Except.ok (chainCS fs b) := by
  unfold readSums
  rw [chainFsC_lookup_mName fs b]
  exact parseManifestText_encode_strict (chainCS_clean hclean hhash)
    (chainCS_strict hnodup)

theorem readSums_chainFsC_tagName {fs : FS} {b : Bag Unit}
    (hnodup : (fs.files.map Prod.fst).Nodup)
    (hclean : ∀ e ∈ fs.files, cleanStrB e.1 = true)
    (hhash : ∀ s, cleanStrB (b.Hasher.Hash s) = true)
    (hname : cleanStrB b.Hasher.Name = true)
    (hm : lookupFile fs (manifestFilename b) = none)
    (hbg : lookupFile fs "bagit.txt" = none) :
    readSums (chainFsC fs b) (tagManifestFilename b) =
      Except.ok (chainTS fs b) := by
  unfold readSums
  rw [show lookupFile (chainFsC fs b) (tagManifestFilename b) =
    some (encodeSums (chainTS fs b)) from
    setFile_lookup_self (chainFsB fs b) (tagManifestFilename b)
      (encodeSums (chainTS fs b))]
  exact parseManifestText_encode_strict (chainTS_clean hclean hhash hname hm hbg)
    (chainTS_strict hnodup hm hbg)

end Bagit

namespace Bagit

/-- C1 (amended): on a root with a `data/` directory, duplicate-free
whitespace-free paths, at least one payload file, a hasher producing
whitespace-free digests and carrying a clean separator-free algorithm
name, a no-op cache, and none of the three output files pre-existing,
`WriteTagFiles` succeeds and an immediate `Validate` on the untouched
result returns zero discrepancies and no error. -/
theorem c1_roundtrip (fs : FS) (b : Bag Unit)
    (hcache : b.Cache = noopCacher) (hdd : fs.hasDataDir = true)
    (hnodup : (fs.files.map Prod.fst).Nodup)
    (hclean : ∀ e ∈ fs.files, cleanStrB e.1 = true)
    (hhash : ∀ s, cleanStrB (b.Hasher.Hash s) = true)
    (hname : cleanStrB b.Hasher.Name = true)
    (hns : hasSlash b.Hasher.Name.data = false)
    (hm : lookupFile fs (manifestFilename b) = none)
    (hbg : lookupFile fs "bagit.txt" = none)
    (htm : lookupFile fs (tagManifestFilename b) = none)
    (hne : dataFileList fs ≠ []) :
    (writeTagFiles (fs, b)).2 = none ∧
    (validate (writeTagFiles (fs, b)).1.1 (writeTagFiles (fs, b)).1.2).1 =
      ([], none) := by
  have hwf := writeTagFiles_clean_chain hcache hdd hnodup hm hbg htm
  constructor
  · rw [hwf]
  · rw [hwf]
    show (validate (chainFsC fs b) (chainBag fs b)).1 = ([], none)
    have htseq : sortByPath (tagSums (chainFsC fs b) b.Hasher) = chainTS fs b := by
      have h : tagSums (chainFsC fs b) b.Hasher =
          tagSums (chainFsB fs b) b.Hasher := by
        unfold tagSums
        rw [tagFileList_chainFsC hns htm]
      rw [h]
      rfl
    have hcseq : sortByPath (payloadSums (chainFsC fs b) b.Hasher) =
        chainCS fs b := by
      have h : payloadSums (chainFsC fs b) b.Hasher = payloadSums fs b.Hasher := by
        unfold payloadSums
        rw [dataFileList_chainFsC hm hbg htm]
      rw [h]
      rfl
    exact validate_roundtrip_core (chainFsC fs b) (chainBag fs b)
      (readSums_chainFsC_mName hnodup hclean hhash)
      (readSums_chainFsC_tagName hnodup hclean hhash hname hm hbg)
      (chainCS_ne_nil hne) (chainTS_ne_nil hns hm hbg)
      hcache hdd (chainFsC_nodup hnodup hm hbg htm)
      htseq hcseq
      (cleanSums_checksum_ne (chainCS_clean hclean hhash))
      (cleanSums_checksum_ne (chainTS_clean hclean hhash hname hm hbg))

end Bagit

namespace Bagit

/-- A root whose single payload file has a space in its name: Write
succeeds, but the manifest line it emits has three fields, so the
immediate Validate fails to re-parse the manifest. -/
def fsSp : FS := { files := [("data/a b.txt", "x")], hasDataDir := true }

/-- C1 counterexample: on a root whose payload file name contains a
space, `WriteTagFiles` succeeds, yet the immediate `Validate` returns no
discrepancies and a (manifest re-parse) error rather than a clean
result — the round-trip property fails without a whitespace-free-path
assumption. -/
theorem c1_counterexample :
    (writeTagFiles (fsSp, bagW)).2 = none ∧
    (validate (writeTagFiles (fsSp, bagW)).1.1
      (writeTagFiles (fsSp, bagW)).1.2).1.1 = [] ∧
    ((validate (writeTagFiles (fsSp, bagW)).1.1
      (writeTagFiles (fsSp, bagW)).1.2).1.2).isSome = true :=
  ⟨rfl, rfl, rfl⟩

/-- Witness for the amended round-trip on a concrete three-file bag. -/
theorem c1_roundtrip_witness :
    (writeTagFiles (fsW, bagW)).2 = none ∧
    (validate (writeTagFiles (fsW, bagW)).1.1 (writeTagFiles (fsW, bagW)).1.2).1 =
      ([], none) :=
  c1_roundtrip fsW bagW rfl rfl (by decide) (by decide) (fun _ => (by decide : cleanStrB "aaaa" = true))
    (by decide) (by decide) rfl rfl rfl (by decide)

end Bagit
